import Mathlib

/-!
Verification of the scale and tick-generation engine of the zcharts
repository (src/scales/linear.ts, src/scales/logarithmic.ts,
src/utils/zoom.ts, src/model/axis.ts).

Modelling conventions:
- JavaScript numbers are modelled by exact rationals.  All inputs a chart
  can feed the engine are IEEE doubles, hence finite decimal fractions;
  theorems that depend on exact decimal representation carry an explicit
  IsDecimal hypothesis.
- Division by zero follows Lean's q / 0 = 0 convention.  Where a claim's
  outcome depends on IEEE Infinity/NaN propagation, a small explicit
  JsVal model is used instead (see the pixel-mapping section).
- The helpers of utils/math.ts and utils/common.ts are not part of the
  provided sources; these definitions are modelled from the spec and are
  marked as such in their doc comments.
- Loops are expressed with an explicit fuel argument where the source
  uses a while loop; every theorem that quantifies over inputs is proved
  for every fuel value, and concrete evaluations use ample fuel.
-/

namespace ZCharts

/-- JavaScript Math.floor as a map on rationals. -/
def qFloor (x : ℚ) : ℚ := (⌊x⌋ : ℤ)

/-- JavaScript Math.ceil as a map on rationals. -/
def qCeil (x : ℚ) : ℚ := (⌈x⌉ : ℤ)

/-- JavaScript Math.round (round half towards plus infinity). -/
def qRound (x : ℚ) : ℚ := ((⌊x + 1/2⌋ : ℤ) : ℚ)

/-- Modelled from the spec: utils/math.ts is missing from the sources.
The spec describes tolerance comparison helpers used "at every decision
point in tick generation"; almostEquals x y eps holds when x and y differ
by less than eps. -/
def almostEquals (x y eps : ℚ) : Prop := |x - y| < eps

instance (x y eps : ℚ) : Decidable (almostEquals x y eps) := by
  unfold almostEquals; infer_instance

/-- Modelled from the spec: utils/math.ts is missing from the sources.
almostWhole x eps holds when x is within eps of the nearest integer
(the "almost-whole check" of spec section 4.2, step 6a). -/
def almostWhole (x eps : ℚ) : Prop := |x - qRound x| ≤ eps

instance (x eps : ℚ) : Decidable (almostWhole x eps) := by
  unfold almostWhole; infer_instance

/-- Modelled from the spec: utils/math.ts is missing from the sources.
The nice-number rounding of spec section 4.2 step 1: pick the nicest
value among 1, 2, 5, 10 scaled to the magnitude of x, choosing the
smallest such value that is at least x.  Non-positive inputs have no
magnitude and map to 0. -/
def niceNum (x : ℚ) : ℚ :=
  if x ≤ 0 then 0
  else
    let e : ℤ := Int.log 10 x
    let f := x / 10 ^ e
    (if f ≤ 1 then 1 else if f ≤ 2 then 2 else if f ≤ 5 then 5 else (10 : ℚ)) * 10 ^ e

/-- Auxiliary recursion for decimalPlaces: multiply by ten until the
rational is an integer, counting steps, with fuel bounding the search. -/
def dpAux : ℕ → ℚ → ℕ
  | 0, _ => 0
  | fuel + 1, q => if q.den = 1 then 0 else dpAux fuel (q * 10) + 1

/-- Modelled from the spec: utils/math.ts is missing from the sources.
The count of decimal places of a finite decimal fraction (spec section
4.2 step 7: "the larger of spacing's and niceMin's decimal-place
counts").  The fuel q.den suffices for every finite decimal fraction;
on rationals that are not decimal fractions (unreachable from IEEE
doubles) the result is unspecified but total. -/
def decimalPlaces (q : ℚ) : ℕ := dpAux q.den q

/-- Propositional form of being a finite decimal fraction: multiplying
by ten to the power of the denominator clears the denominator.  Every
IEEE double satisfies this. -/
def IsDecimal (q : ℚ) : Prop := (q * 10 ^ q.den).den = 1

instance (q : ℚ) : Decidable (IsDecimal q) := by
  unfold IsDecimal; infer_instance

/-- Source src/utils/zoom.ts, getZoomExtent. -/
def getZoomExtent (value mn mx scaleFactor : ℚ) (isLogarithmic : Bool) : ℚ × ℚ :=
  let range := mx - mn
  let ratioLeft := (value - mn) / range
  let ratioRight := 1 - ratioLeft
  let newRange := range * scaleFactor
  let newMin0 := value - newRange * ratioLeft
  let newMax0 := value + newRange * ratioRight
  if isLogarithmic then
    (if newMin0 ≤ 0 then 1/10 else newMin0, if newMax0 ≤ 0 then 1/10 else newMax0)
  else
    (newMin0, newMax0)

/-- Domain extent record (src/types/geometric.ts MinMax). -/
structure MinMax where
  min : ℚ
  max : ℚ
  deriving DecidableEq

/-- Inputs of determineDataLimits (the relevant fields of ScaleOptions). -/
structure ScaleLimitOptions where
  dataMin : ℚ
  dataMax : ℚ
  userMin : Option ℚ
  userMax : Option ℚ
  beginAtZero : Bool

/-- Source src/scales/linear.ts lines 218 to 235,
LinearScale.determineDataLimits. -/
def Linear.determineDataLimits (o : ScaleLimitOptions) : MinMax :=
  let min0 := o.userMin.getD o.dataMin
  let min1 := if o.beginAtZero ∧ 0 < min0 then 0 else min0
  let max1 := match o.userMax with
    | some u => u
    | none => qCeil o.dataMax
  let min2 := min min1 max1
  let max2 := max min2 max1
  ⟨min2, max2⟩

/-- Source src/scales/logarithmic.ts lines 101 to 117,
LogarithmicScale.determineDataLimits. -/
def Logarithmic.determineDataLimits (o : ScaleLimitOptions) : MinMax :=
  let min0 := o.userMin.getD o.dataMin
  let min1 := if o.beginAtZero then (1/10 : ℚ) else min0
  let max1 := match o.userMax with
    | some u => u
    | none => qCeil o.dataMax
  let min2 := min min1 max1
  let max2 := max min2 max1
  ⟨min2, max2⟩

/-- Geometry of the axis drawing box as consumed by the pixel mapping of
src/model/axis.ts: orientation, layout width and height, and the
available-space corners box.x1 and box.y2. -/
structure AxisGeom where
  horizontal : Bool
  width : ℚ
  height : ℚ
  x1 : ℚ
  y2 : ℚ

/-- Source src/model/axis.ts lines 605 to 612, Scale.getPixelForDecimal. -/
def getPixelForDecimal (g : AxisGeom) (decimal : ℚ) : ℚ :=
  if g.horizontal then g.x1 + g.width * decimal else g.y2 - g.height * decimal

/-- Source src/model/axis.ts lines 614 to 621, Scale.getDecimalForPixel. -/
def getDecimalForPixel (g : AxisGeom) (pixel : ℚ) : ℚ :=
  if g.horizontal then (pixel - g.x1) / g.width else (g.y2 - pixel) / g.height

/-- One generated tick (src/types/tick.ts). -/
structure Tick where
  value : ℚ
  deriving DecidableEq

/-- Tick bounds policy of src/scales/linear.ts BuildTickOptions. -/
inductive TickBounds
  | ticks
  | data
  deriving DecidableEq

/-- The option record of src/scales/linear.ts BuildTickOptions.  The
source fields horizontal and minRotation only enter through the value
sinOrCos = (horizontal ? sin(toRadians(minRotation)) : cos(toRadians(minRotation)))
inside relativeLabelSize; that transcendental value is carried here as
the input field sinOrCos.  Likewise strLen models the decimal string
length ("" + value).length used by relativeLabelSize. -/
structure BuildTickOptions where
  bounds : TickBounds
  step : Option ℚ
  min : Option ℚ
  max : Option ℚ
  precision : Option ℤ
  count : Option ℚ
  maxTicks : ℚ
  maxDigits : ℚ
  includeBounds : Bool
  sinOrCos : ℚ
  strLen : ℚ → ℕ

/-- Source src/scales/linear.ts lines 203 to 213, relativeLabelSize.
The expression (horizontal ? Math.sin(rad) : Math.cos(rad)) || 0.001 is
modelled by the precomputed field sinOrCos with the same falsy-default
handling. -/
def relativeLabelSize (value minSpacing : ℚ) (opts : BuildTickOptions) : ℚ :=
  let ratio := if opts.sinOrCos = 0 then 1/1000 else opts.sinOrCos
  let length := 3/4 * minSpacing * (opts.strLen value : ℚ)
  min (minSpacing / ratio) length

/-- Intermediate state of generateTicks after the spacing, bounds and
rounding-factor computation (src/scales/linear.ts lines 62 to 149).
The niceMin and niceMax fields are the values after the rounding of
lines 148 to 149. -/
structure GTState where
  minSpacing : ℚ
  spacing : ℚ
  numSpaces : ℚ
  niceMin : ℚ
  niceMax : ℚ
  factor : ℚ

/-- Source src/scales/linear.ts lines 62 to 149: spacing selection, the
three tie-break cases, and the rounding of the nice bounds.  In the
count branch the division (niceMax - niceMin) / numSpaces follows the
rational convention q / 0 = 0 at numSpaces = 0 (an explicit count of
one), where the source's IEEE division produces an infinity; the
concrete evaluations below therefore avoid that input, and the
universally quantified theorems do not depend on the value it
takes. -/
def gtState (g : BuildTickOptions) (dr : MinMax) : GTState :=
  let unit : ℚ := match g.step with
    | some s => if s = 0 then 1 else s
    | none => 1
  let maxSpaces := g.maxTicks - 1
  let rmin := dr.min
  let rmax := dr.max
  let minSpacing := (rmax - rmin) / (g.maxDigits + 1)
  let spacing0 := niceNum ((rmax - rmin) / maxSpaces / unit) * unit
  let numSpaces0 := qCeil (rmax / spacing0) - qFloor (rmin / spacing0)
  let spacing1 := if maxSpaces < numSpaces0
    then niceNum (numSpaces0 * spacing0 / maxSpaces / unit) * unit
    else spacing0
  let spacing2 := match g.precision with
    | some p => qCeil (spacing1 * 10 ^ p) / 10 ^ p
    | none => spacing1
  let niceMin0 := match g.bounds with
    | .ticks => qFloor (rmin / spacing2) * spacing2
    | .data => rmin
  let niceMax0 := match g.bounds with
    | .ticks => qCeil (rmax / spacing2) * spacing2
    | .data => rmax
  let case1 : Prop := g.min.isSome ∧ g.max.isSome ∧ g.step.getD 0 ≠ 0 ∧
      almostWhole ((g.max.getD 0 - g.min.getD 0) / g.step.getD 0) (spacing2 / 1000)
  let mid : ℚ × ℚ × ℚ × ℚ :=
    if case1 then
      let mn := g.min.getD 0
      let mx := g.max.getD 0
      let ns := qRound (min ((mx - mn) / spacing2) g.maxTicks)
      (ns, (mx - mn) / ns, mn, mx)
    else if g.count.isSome then
      let cnt := g.count.getD 0
      let nMin := if g.min.isSome then g.min.getD 0 else niceMin0
      let nMax := if g.max.isSome then g.max.getD 0 else niceMax0
      let ns := cnt - 1
      (ns, (nMax - nMin) / ns, nMin, nMax)
    else
      let ns0 := (niceMax0 - niceMin0) / spacing2
      let ns := if almostEquals ns0 (qRound ns0) (spacing2 / 1000)
        then qRound ns0 else qCeil ns0
      (ns, spacing2, niceMin0, niceMax0)
  let numSpaces := mid.1
  let spacing := mid.2.1
  let niceMin1 := mid.2.2.1
  let niceMax1 := mid.2.2.2
  let decPlaces := max (decimalPlaces spacing) (decimalPlaces niceMin1)
  let factor : ℚ := match g.precision with
    | some p => 10 ^ p
    | none => 10 ^ decPlaces
  ⟨minSpacing, spacing, numSpaces,
    qRound (niceMin1 * factor) / factor, qRound (niceMax1 * factor) / factor, factor⟩

/-- The tick value emitted at loop index j
(src/scales/linear.ts line 175). -/
def tickAt (st : GTState) (j : ℚ) : ℚ :=
  qRound ((st.niceMin + j * st.spacing) * st.factor) / st.factor

/-- Source src/scales/linear.ts lines 151 to 172: the optional leading
pinned-minimum tick and the initial loop index j. -/
def gtFront (g : BuildTickOptions) (st : GTState) : List Tick × ℕ :=
  match g.min with
  | none => ([], 0)
  | some mn =>
    if g.includeBounds ∧ st.niceMin ≠ mn then
      let j1 : ℕ := if st.niceMin < mn then 1 else 0
      let j2 : ℕ :=
        if almostEquals (tickAt st (j1 : ℚ)) mn (relativeLabelSize mn st.minSpacing g)
        then j1 + 1 else j1
      ([⟨mn⟩], j2)
    else if st.niceMin < mn then ([], 1)
    else ([], 0)

/-- One-step unrolling of the main emission loop of
src/scales/linear.ts lines 174 to 180: with n iterations remaining and
current index j, stop when j reaches numSpaces (n = 0), emit the tick
value at j, and break when a pinned max is exceeded. -/
def gtLoopGo (g : BuildTickOptions) (st : GTState) : ℕ → ℕ → List ℚ
  | 0, _ => []
  | n + 1, j =>
    let tv := tickAt st (j : ℚ)
    match g.max with
    | some mx => if mx < tv then [] else tv :: gtLoopGo g st n (j + 1)
    | none => tv :: gtLoopGo g st n (j + 1)

/-- Source src/scales/linear.ts lines 174 to 180: the main emission
loop.  The for loop runs the integer index j from j0 while j is below
numSpaces, so the iteration count is the ceiling of numSpaces minus
j0. -/
def gtLoop (g : BuildTickOptions) (st : GTState) (j0 : ℕ) : List ℚ :=
  gtLoopGo g st ((⌈st.numSpaces⌉ - (j0 : ℤ)).toNat) j0

/-- Source src/scales/linear.ts lines 182 to 198: the closing block that
replaces or appends the pinned maximum, or appends niceMax. -/
def gtEnd (g : BuildTickOptions) (st : GTState) (body : List Tick) : List Tick :=
  match g.max with
  | some mx =>
    if g.includeBounds ∧ st.niceMax ≠ mx then
      match body.getLast? with
      | some t =>
        if almostEquals t.value mx (relativeLabelSize mx st.minSpacing g)
        then body.dropLast ++ [⟨mx⟩]
        else body ++ [⟨mx⟩]
      | none => body ++ [⟨mx⟩]
    else if st.niceMax = mx then body ++ [⟨st.niceMax⟩]
    else body
  | none => body ++ [⟨st.niceMax⟩]

/-- Source src/scales/linear.ts lines 53 to 201, generateTicks: the
early degenerate return of lines 86 to 88 followed by the state, front,
loop and end blocks. -/
def generateTicks (g : BuildTickOptions) (dr : MinMax) : List Tick :=
  let unit : ℚ := match g.step with
    | some s => if s = 0 then 1 else s
    | none => 1
  let spacing0 := niceNum ((dr.max - dr.min) / (g.maxTicks - 1) / unit) * unit
  if spacing0 < 1 / 10 ^ 14 ∧ g.min = none ∧ g.max = none then
    [⟨dr.min⟩, ⟨dr.max⟩]
  else
    let st := gtState g dr
    let fr := gtFront g st
    let body := fr.1 ++ (gtLoop g st fr.2).map (fun v => (⟨v⟩ : Tick))
    gtEnd g st body

/-- Source src/scales/linear.ts lines 261 to 286, LinearScale.buildTicks
over the scale extent (smin, smax).  The record g carries the resolved
tick options (getMaxTicks folded into maxTicks, bounds defaulted to
data, includeBounds defaulted to true by the caller); buildTicks clamps
maxTicks to at least 2, pins min and max to the extent and passes the
extent as the data range. -/
def Linear.buildTicks (smin smax : ℚ) (g : BuildTickOptions) : List Tick :=
  generateTicks
    { g with min := some smin, max := some smax, maxTicks := max 2 g.maxTicks }
    ⟨smin, smax⟩

/-- Source src/scales/logarithmic.ts line 10, log10Floor: the integer
floor of the base-ten logarithm.  Int.log agrees with floor(log10 v) on
positive rationals; nonpositive arguments (where the source produces
NaN or negative infinity) are outside the domain the claims use. -/
def log10Floor (v : ℚ) : ℤ := Int.log 10 v

/-- Source src/scales/logarithmic.ts lines 12 to 15, isMajor. -/
def isMajor (tickVal : ℚ) : Bool :=
  decide (tickVal / 10 ^ log10Floor tickVal = 1)

/-- Source src/scales/logarithmic.ts lines 17 to 22, steps. -/
def Logarithmic.steps (mn mx : ℚ) (rangeExp : ℤ) : ℚ :=
  let rangeStep : ℚ := 10 ^ rangeExp
  let start := qFloor (mn / rangeStep)
  let stop := qCeil (mx / rangeStep)
  stop - start

/-- Fuelled form of the first while loop of startExp (increment the
exponent while there are more than ten steps). -/
def Logarithmic.startExpUp (mn mx : ℚ) : ℕ → ℤ → ℤ
  | 0, e => e
  | fuel + 1, e => if 10 < Logarithmic.steps mn mx e
      then Logarithmic.startExpUp mn mx fuel (e + 1) else e

/-- Fuelled form of the second while loop of startExp (decrement the
exponent while there are fewer than ten steps). -/
def Logarithmic.startExpDown (mn mx : ℚ) : ℕ → ℤ → ℤ
  | 0, e => e
  | fuel + 1, e => if Logarithmic.steps mn mx e < 10
      then Logarithmic.startExpDown mn mx fuel (e - 1) else e

/-- Source src/scales/logarithmic.ts lines 24 to 34, startExp.  The two
while loops terminate in the source for every positive range; here each
is given ample fuel, and every universally quantified theorem below
holds for an arbitrary resulting exponent. -/
def Logarithmic.startExp (mn mx : ℚ) : ℤ :=
  let range := mx - mn
  let e0 := log10Floor range
  let e1 := Logarithmic.startExpUp mn mx 1000 e0
  let e2 := Logarithmic.startExpDown mn mx 1000 e1
  min e2 (log10Floor mn)

/-- One generated logarithmic tick
(src/scales/logarithmic.ts LogTick). -/
structure LogTick where
  value : ℚ
  major : Bool
  significand : ℤ
  deriving DecidableEq

/-- The mutable loop state of the logarithmic generateTicks while loop:
current value, significand, exponent and precision. -/
structure LogLoopState where
  value : ℚ
  significand : ℤ
  exp : ℤ
  precision : ℚ

/-- One iteration step of the while loop of
src/scales/logarithmic.ts lines 71 to 87, excluding the push. -/
def Logarithmic.loopStep (base offset : ℚ) (s : LogLoopState) : LogLoopState :=
  let sig1 := if 10 ≤ s.significand then (if s.significand < 15 then 15 else 20)
    else s.significand + 1
  let rolled := 20 ≤ sig1
  let exp' := if rolled then s.exp + 1 else s.exp
  let sig' := if rolled then 2 else sig1
  let prec' := if rolled then (if 0 ≤ exp' then 1 else s.precision) else s.precision
  let value' := qRound ((base + offset + (sig' : ℚ) * 10 ^ exp') * prec') / prec'
  ⟨value', sig', exp', prec'⟩

/-- Fuelled form of the while loop of src/scales/logarithmic.ts lines
71 to 87: push a tick while value < max, then step.  Returns the pushed
ticks together with the final value and significand used for the
trailing tick. -/
def Logarithmic.loop (mx base offset : ℚ) : ℕ → LogLoopState → List LogTick × ℚ × ℤ
  | 0, s => ([], s.value, s.significand)
  | fuel + 1, s =>
    if s.value < mx then
      let t : LogTick := ⟨s.value, isMajor s.value, s.significand⟩
      let rest := Logarithmic.loop mx base offset fuel (Logarithmic.loopStep base offset s)
      (t :: rest.1, rest.2)
    else ([], s.value, s.significand)

/-- Generation options of the logarithmic generateTicks
(src/scales/logarithmic.ts GenerationOptions). -/
structure LogGenerationOptions where
  min : Option ℚ
  max : Option ℚ

/-- Source src/scales/logarithmic.ts lines 52 to 92, generateTicks.
finiteOrDefault of utils/common.ts (missing from the sources, modelled
from the spec) returns its first argument when that is a finite number;
on Option-valued rationals this is Option.getD. -/
def Logarithmic.generateTicks (g : LogGenerationOptions) (dr : MinMax) : List LogTick :=
  let mn := g.min.getD dr.min
  let mx := dr.max
  let minExp := log10Floor mn
  let exp := Logarithmic.startExp mn mx
  let precision : ℚ := if exp < 0 then 10 ^ (-exp) else 1
  let stepSize : ℚ := 10 ^ exp
  let base : ℚ := if exp < minExp then 10 ^ minExp else 0
  let start := qRound ((mn - base) * precision) / precision
  let offset := qFloor ((mn - base) / stepSize / 10) * stepSize * 10
  let significand : ℤ := ⌊(start - offset) / (10:ℚ) ^ exp⌋
  let value0 := g.min.getD
    (qRound ((base + offset + (significand : ℚ) * 10 ^ exp) * precision) / precision)
  let res := Logarithmic.loop mx base offset 100000
    ⟨value0, significand, exp, precision⟩
  let lastTick := g.max.getD res.2.1
  res.1 ++ [⟨lastTick, isMajor lastTick, res.2.2⟩]

/-- Source src/scales/logarithmic.ts lines 119 to 126,
LogarithmicScale.buildTicks over the scale extent (smin, smax). -/
def Logarithmic.buildTicks (smin smax : ℚ) : List LogTick :=
  Logarithmic.generateTicks ⟨some smin, some smax⟩ ⟨smin, smax⟩

/-- Source src/scales/linear.ts lines 300 to 307,
LinearScale.getPixelForValue over the scale extent (smin, smax). -/
def Linear.getPixelForValue (smin smax : ℚ) (g : AxisGeom) (value : ℚ) : ℚ :=
  let range := smax - smin
  if range = 0 then 0
  else getPixelForDecimal g ((value - smin) / range)

/-- Source src/scales/linear.ts lines 309 to 316,
LinearScale.getValueForPixel over the scale extent (smin, smax). -/
def Linear.getValueForPixel (smin smax : ℚ) (g : AxisGeom) (pixel : ℚ) : ℚ :=
  let range := smax - smin
  if range = 0 then smin
  else getDecimalForPixel g pixel * range + smin

/-- Axis drawing-box geometry over the reals, for the logarithmic pixel
mapping whose transform uses the transcendental base-ten logarithm. -/
structure RAxisGeom where
  horizontal : Bool
  width : ℝ
  height : ℝ
  x1 : ℝ
  y2 : ℝ

/-- Source src/model/axis.ts lines 605 to 612 over the reals. -/
noncomputable def rGetPixelForDecimal (g : RAxisGeom) (decimal : ℝ) : ℝ :=
  if g.horizontal then g.x1 + g.width * decimal else g.y2 - g.height * decimal

/-- Source src/model/axis.ts lines 614 to 621 over the reals. -/
noncomputable def rGetDecimalForPixel (g : RAxisGeom) (pixel : ℝ) : ℝ :=
  if g.horizontal then (pixel - g.x1) / g.width else (g.y2 - pixel) / g.height

/-- Source src/scales/logarithmic.ts lines 138 to 152,
LogarithmicScale.getPixelForValue over the scale extent (smin, smax).
The undefined and NaN guards of lines 143 to 147 concern non-values
outside this model; the zero substitution is kept. -/
noncomputable def Logarithmic.getPixelForValue
    (smin smax : ℝ) (g : RAxisGeom) (value : ℝ) : ℝ :=
  let startValue := Real.logb 10 smin
  let valueRange := Real.logb 10 smax - Real.logb 10 smin
  let v := if value = 0 then smin else value
  rGetPixelForDecimal g
    (if v = smin then 0 else (Real.logb 10 v - startValue) / valueRange)

/-- Source src/scales/logarithmic.ts lines 154 to 161,
LogarithmicScale.getValueForPixel over the scale extent (smin, smax). -/
noncomputable def Logarithmic.getValueForPixel
    (smin smax : ℝ) (g : RAxisGeom) (pixel : ℝ) : ℝ :=
  let startValue := Real.logb 10 smin
  let valueRange := Real.logb 10 smax - Real.logb 10 smin
  let decimal := rGetDecimalForPixel g pixel
  (10 : ℝ) ^ (startValue + decimal * valueRange)

/-- An IEEE double restricted to the values the pixel mapping can
produce: a finite number (exact rational), a signed infinity, or NaN.
Used where a claim's outcome depends on division by zero, which the
plain rational model cannot express. -/
inductive JsVal
  | num (q : ℚ)
  | posInf
  | negInf
  | nan
  deriving DecidableEq

/-- IEEE division for JsVal operands. -/
def jsDiv : JsVal → JsVal → JsVal
  | .num a, .num b =>
    if b = 0 then (if 0 < a then .posInf else if a < 0 then .negInf else .nan)
    else .num (a / b)
  | .num _, .posInf => .num 0
  | .num _, .negInf => .num 0
  | .posInf, .num b => if 0 ≤ b then .posInf else .negInf
  | .negInf, .num b => if 0 ≤ b then .negInf else .posInf
  | _, _ => .nan

/-- IEEE multiplication for JsVal operands. -/
def jsMul : JsVal → JsVal → JsVal
  | .num a, .num b => .num (a * b)
  | .posInf, .num b => if 0 < b then .posInf else if b < 0 then .negInf else .nan
  | .negInf, .num b => if 0 < b then .negInf else if b < 0 then .posInf else .nan
  | .num a, .posInf => if 0 < a then .posInf else if a < 0 then .negInf else .nan
  | .num a, .negInf => if 0 < a then .negInf else if a < 0 then .posInf else .nan
  | .posInf, .posInf => .posInf
  | .negInf, .negInf => .posInf
  | .posInf, .negInf => .negInf
  | .negInf, .posInf => .negInf
  | _, _ => .nan

/-- IEEE addition for JsVal operands. -/
def jsAdd : JsVal → JsVal → JsVal
  | .num a, .num b => .num (a + b)
  | .posInf, .num _ => .posInf
  | .num _, .posInf => .posInf
  | .negInf, .num _ => .negInf
  | .num _, .negInf => .negInf
  | .posInf, .posInf => .posInf
  | .negInf, .negInf => .negInf
  | _, _ => .nan

/-- Source src/scales/linear.ts lines 309 to 316 composed with
src/model/axis.ts lines 614 to 621, with IEEE semantics for the
division by the axis box width, so that a zero-width box is modelled
the way a JavaScript engine evaluates it. -/
def Linear.getValueForPixelJs (smin smax : ℚ) (horizontal : Bool)
    (width height x1 y2 pixel : ℚ) : JsVal :=
  let range := smax - smin
  if range = 0 then .num smin
  else
    let decimal := if horizontal
      then jsDiv (.num (pixel - x1)) (.num width)
      else jsDiv (.num (y2 - pixel)) (.num height)
    jsAdd (jsMul decimal (.num range)) (.num smin)

/-- Concrete default tick settings used by concrete evaluations: data
bounds, no step, count or precision, maxTicks 11, includeBounds true, a
horizontal axis with zero minimum rotation (sinOrCos = sin 0 = 0, which
relativeLabelSize replaces by its falsy default). -/
def defaultTickSettings : BuildTickOptions :=
  ⟨.data, none, none, none, none, none, 11, 4, true, 0, fun _ => 1⟩

/-- Precision value the logarithmic loop carries when the current
exponent is exp and the initial exponent was e0 (the source fixes
precision to one once exp is nonnegative and keeps the initial
ten-to-the-minus-e0 otherwise). -/
def pOf (e0 exp : ℤ) : ℚ := if exp < 0 then 10 ^ (-e0) else 1

/-- The value the logarithmic generator computes for significand s and
exponent exp: the rounded grid point of
src/scales/logarithmic.ts lines 83 to 86. -/
def vOf (b o : ℚ) (e0 s exp : ℤ) : ℚ :=
  qRound ((b + o + (s : ℚ) * 10 ^ exp) * pOf e0 exp) / pOf e0 exp

/-- The significand values reachable in the logarithmic stepping loop:
zero through ten, or the intermediate value fifteen. -/
def GoodSig (s : ℤ) : Prop := (0 ≤ s ∧ s ≤ 10) ∨ s = 15

/-- Being an integer multiple of ten to the power e0 + 1, the shape of
the base and offset constants of the logarithmic generator. -/
def DecadeAligned (x : ℚ) (e0 : ℤ) : Prop := ∃ z : ℤ, x = z * 10 ^ (e0 + 1)

/-! Helper lemmas about rounding and decimal fractions. -/

theorem qRound_den_one (x : ℚ) (h : x.den = 1) : qRound x = x := by
  have hx : (x.num : ℚ) = x := ((Rat.den_eq_one_iff x).mp h)
  unfold qRound
  rw [← hx, add_comm, Int.floor_add_int]
  norm_num

theorem roundFac_exact (x f : ℚ) (hf : f ≠ 0) (h : (x * f).den = 1) :
    qRound (x * f) / f = x := by
  rw [qRound_den_one _ h, mul_div_assoc, div_self hf, mul_one]

theorem qRound_div_den_one (y f : ℚ) (hf : f ≠ 0) : (qRound y / f * f).den = 1 := by
  rw [div_mul_cancel₀ _ hf]
  unfold qRound
  exact Rat.intCast_den _

theorem roundFac_idem (y f : ℚ) (hf : f ≠ 0) :
    qRound (qRound y / f * f) / f = qRound y / f := by
  rw [qRound_den_one _ (qRound_div_den_one y f hf), div_mul_cancel₀ _ hf]

theorem dpAux_exact (fuel : ℕ) :
    ∀ (q : ℚ) (k : ℕ), k ≤ fuel → (q * 10 ^ k).den = 1 →
      (q * 10 ^ dpAux fuel q).den = 1 := by
  induction fuel with
  | zero =>
    intro q k hk h
    interval_cases k
    simpa [dpAux] using h
  | succ n ih =>
    intro q k hk h
    by_cases hq : q.den = 1
    · simpa [dpAux, hq] using hq
    · cases k with
      | zero => simp at h; exact absurd h hq
      | succ k' =>
        have h' : (q * 10 * 10 ^ k').den = 1 := by
          rw [mul_assoc, ← pow_succ']
          exact h
        have := ih (q * 10) k' (Nat.succ_le_succ_iff.mp hk) h'
        simp only [dpAux, hq, if_false]
        rw [pow_succ', ← mul_assoc]
        exact this

theorem IsDecimal.exact {q : ℚ} (h : IsDecimal q) :
    (q * 10 ^ decimalPlaces q).den = 1 :=
  dpAux_exact q.den q q.den le_rfl h

theorem den_one_mul_pow (a : ℚ) (h : a.den = 1) (m : ℕ) : (a * 10 ^ m).den = 1 := by
  have ha : (a.num : ℚ) = a := (Rat.den_eq_one_iff a).mp h
  have : a * 10 ^ m = ((a.num * 10 ^ m : ℤ) : ℚ) := by
    push_cast
    rw [ha]
  rw [this]
  exact Rat.intCast_den _

theorem exact_at_ge {q : ℚ} (h : IsDecimal q) {d : ℕ} (hd : decimalPlaces q ≤ d) :
    (q * 10 ^ d).den = 1 := by
  obtain ⟨m, rfl⟩ := Nat.exists_eq_add_of_le hd
  rw [pow_add, ← mul_assoc]
  exact den_one_mul_pow _ h.exact m

theorem gtState_factor_pos (g : BuildTickOptions) (dr : MinMax) :
    0 < (gtState g dr).factor := by
  unfold gtState
  cases g.precision <;> simp <;> positivity

/-! Claim theorems. -/

/-- C2: for an extent with min < max, a positive scale factor and a
non-logarithmic zoom, getZoomExtent keeps the pivot's relative position
in the extent exactly, hence getPixelForValue of the pivot computed
against the new extent equals the one computed against the old extent
(the model is exact, so equality holds without tolerance). -/
theorem zoom_pivot_invariance (pivot mn mx sf : ℚ) (g : AxisGeom)
    (hlt : mn < mx) (hsf : 0 < sf) :
    (pivot - (getZoomExtent pivot mn mx sf false).1) /
        ((getZoomExtent pivot mn mx sf false).2 - (getZoomExtent pivot mn mx sf false).1) =
      (pivot - mn) / (mx - mn) ∧
    Linear.getPixelForValue (getZoomExtent pivot mn mx sf false).1
        (getZoomExtent pivot mn mx sf false).2 g pivot =
      Linear.getPixelForValue mn mx g pivot := by
  have hr : mx - mn ≠ 0 := sub_ne_zero.mpr (ne_of_gt hlt)
  have hsf' : sf ≠ 0 := ne_of_gt hsf
  have hrs : (mx - mn) * sf ≠ 0 := mul_ne_zero hr hsf'
  have h1 : (getZoomExtent pivot mn mx sf false).1 =
      pivot - (mx - mn) * sf * ((pivot - mn) / (mx - mn)) := rfl
  have h2 : (getZoomExtent pivot mn mx sf false).2 =
      pivot + (mx - mn) * sf * (1 - (pivot - mn) / (mx - mn)) := rfl
  have e2 : (getZoomExtent pivot mn mx sf false).2 -
      (getZoomExtent pivot mn mx sf false).1 = (mx - mn) * sf := by
    rw [h1, h2]; ring
  have e1 : pivot - (getZoomExtent pivot mn mx sf false).1 =
      (pivot - mn) / (mx - mn) * ((mx - mn) * sf) := by
    rw [h1]; ring
  have hkey : (pivot - (getZoomExtent pivot mn mx sf false).1) /
      ((getZoomExtent pivot mn mx sf false).2 - (getZoomExtent pivot mn mx sf false).1) =
      (pivot - mn) / (mx - mn) := by
    rw [e1, e2, mul_div_cancel_right₀ _ hrs]
  refine ⟨hkey, ?_⟩
  show (if (getZoomExtent pivot mn mx sf false).2 - (getZoomExtent pivot mn mx sf false).1 = 0
      then (0 : ℚ)
      else getPixelForDecimal g ((pivot - (getZoomExtent pivot mn mx sf false).1) /
        ((getZoomExtent pivot mn mx sf false).2 - (getZoomExtent pivot mn mx sf false).1))) =
    (if mx - mn = 0 then (0 : ℚ) else getPixelForDecimal g ((pivot - mn) / (mx - mn)))
  rw [e2, if_neg hrs, if_neg hr]
  congr 1
  rw [e1, mul_div_cancel_right₀ _ hrs]

/-- C2 witness at pivot 25, extent 0 to 100, factor one half. -/
theorem zoom_pivot_invariance_witness :
    (25 - (getZoomExtent 25 0 100 (1/2) false).1) /
        ((getZoomExtent 25 0 100 (1/2) false).2 - (getZoomExtent 25 0 100 (1/2) false).1) =
      ((25 : ℚ) - 0) / (100 - 0) ∧
    Linear.getPixelForValue (getZoomExtent 25 0 100 (1/2) false).1
        (getZoomExtent 25 0 100 (1/2) false).2 ⟨true, 400, 300, 7, 9⟩ 25 =
      Linear.getPixelForValue 0 100 ⟨true, 400, 300, 7, 9⟩ 25 :=
  zoom_pivot_invariance 25 0 100 (1/2) ⟨true, 400, 300, 7, 9⟩ (by norm_num) (by norm_num)

/-- C5: with isLogarithmic true, getZoomExtent never returns a
nonpositive bound; each returned bound is exactly one tenth when the
unclamped bound would be nonpositive and the unclamped bound
otherwise. -/
theorem zoom_log_floor (v mn mx sf : ℚ) :
    0 < (getZoomExtent v mn mx sf true).1 ∧ 0 < (getZoomExtent v mn mx sf true).2 ∧
    (getZoomExtent v mn mx sf true).1 =
      (if v - (mx - mn) * sf * ((v - mn) / (mx - mn)) ≤ 0 then 1/10
        else v - (mx - mn) * sf * ((v - mn) / (mx - mn))) ∧
    (getZoomExtent v mn mx sf true).2 =
      (if v + (mx - mn) * sf * (1 - (v - mn) / (mx - mn)) ≤ 0 then 1/10
        else v + (mx - mn) * sf * (1 - (v - mn) / (mx - mn))) := by
  have h1 : (getZoomExtent v mn mx sf true).1 =
      (if v - (mx - mn) * sf * ((v - mn) / (mx - mn)) ≤ 0 then (1/10 : ℚ)
        else v - (mx - mn) * sf * ((v - mn) / (mx - mn))) := rfl
  have h2 : (getZoomExtent v mn mx sf true).2 =
      (if v + (mx - mn) * sf * (1 - (v - mn) / (mx - mn)) ≤ 0 then (1/10 : ℚ)
        else v + (mx - mn) * sf * (1 - (v - mn) / (mx - mn))) := rfl
  rw [h1, h2]
  refine ⟨?_, ?_, rfl, rfl⟩
  · split_ifs with h
    · norm_num
    · exact lt_of_not_le h
  · split_ifs with h
    · norm_num
    · exact lt_of_not_le h

/-- C6 counterexample: with beginAtZero true but a negative pinned
userMax, LogarithmicScale.determineDataLimits returns a nonpositive
min, because the final min-max clamp pulls min down to max. -/
theorem log_limits_counterexample :
    (Logarithmic.determineDataLimits ⟨1, 10, none, some (-5), true⟩).min = -5 ∧
    (Logarithmic.determineDataLimits ⟨1, 10, none, some (-5), true⟩).min ≤ 0 := by
  have h : (Logarithmic.determineDataLimits ⟨1, 10, none, some (-5), true⟩).min = -5 := by
    unfold Logarithmic.determineDataLimits
    norm_num [min_def]
  exact ⟨h, by rw [h]; norm_num⟩

/-- C6 amended: with beginAtZero true, LogarithmicScale's
determineDataLimits returns a strictly positive min whenever the
resolved max (the pinned userMax, else the ceiling of dataMax) is
strictly positive. -/
theorem log_limits_beginAtZero_pos (o : ScaleLimitOptions)
    (hbz : o.beginAtZero = true)
    (hmax : 0 < o.userMax.getD (qCeil o.dataMax)) :
    0 < (Logarithmic.determineDataLimits o).min := by
  unfold Logarithmic.determineDataLimits
  cases hu : o.userMax with
  | none =>
    simp only [hu, Option.getD_none] at hmax
    simp [hbz, hu, lt_min_iff, hmax]
  | some u =>
    simp only [hu, Option.getD_some] at hmax
    simp [hbz, hu, lt_min_iff, hmax]

/-- C6 amended witness at beginAtZero with dataMax ten. -/
theorem log_limits_beginAtZero_pos_witness :
    (0 : ℚ) < (Option.getD none (qCeil (10 : ℚ))) ∧
    0 < (Logarithmic.determineDataLimits ⟨1, 10, none, none, true⟩).min :=
  ⟨by norm_num [qCeil],
    log_limits_beginAtZero_pos ⟨1, 10, none, none, true⟩ rfl (by norm_num [qCeil])⟩

/-- C8 counterexample: with a zero-width axis box (and a nonzero
domain), getValueForPixel evaluated with IEEE semantics returns
positive infinity, not the domain min fallback; division by the zero
box width produces an infinity that propagates to the caller. -/
theorem pixel_zero_box_counterexample :
    Linear.getValueForPixelJs 0 1 true 0 300 0 0 5 = JsVal.posInf ∧
    Linear.getValueForPixelJs 0 1 true 0 300 0 0 5 ≠ JsVal.num 0 := by
  have h : Linear.getValueForPixelJs 0 1 true 0 300 0 0 5 = JsVal.posInf := by
    unfold Linear.getValueForPixelJs
    norm_num [jsDiv, jsMul, jsAdd]
  exact ⟨h, by rw [h]; intro hc; exact JsVal.noConfusion hc⟩

/-- C8 amended: with a zero-width domain (max equal to min), both
mappings return their documented fallbacks for every axis geometry and
every input: getPixelForValue returns pixel 0 and getValueForPixel
returns the domain min.  With a zero-width axis box but a nonzero
domain, getValueForPixel instead propagates an IEEE infinity (see the
counterexample), so no fallback holds there. -/
theorem pixel_degenerate_domain_fallback (smin : ℚ) (g : AxisGeom) (v p : ℚ) :
    Linear.getPixelForValue smin smin g v = 0 ∧
    Linear.getValueForPixel smin smin g p = smin := by
  unfold Linear.getPixelForValue Linear.getValueForPixel
  norm_num

/-- C4 counterexample: a LinearScale with both bounds pinned to 2 and
default options returns exactly one tick with value 2, not the two
ticks the claim states: via buildTicks the bounds are always defined,
so the degenerate early return (which requires both bounds undefined)
is unreachable, the emission loop runs zero times and only the closing
niceMax push fires. -/
theorem degenerate_buildTicks_counterexample :
    (Linear.buildTicks 2 2 defaultTickSettings).map Tick.value = [2] ∧
    ([(2 : ℚ)] ≠ [2, 2]) := by
  constructor
  · norm_num [Linear.buildTicks, generateTicks, gtState, gtFront, gtLoop, gtLoopGo, gtEnd,
      tickAt, niceNum, qFloor, qCeil, qRound, decimalPlaces, dpAux, relativeLabelSize,
      almostEquals, almostWhole, defaultTickSettings, min_def, max_def,
      Option.some_ne_none, reduceCtorEq]
  · simp

/-- C4 amended: for every decimal-fraction value v, LinearScale
buildTicks on the degenerate extent (v, v) with default tick options
(data bounds, no step, count or precision) returns exactly the single
tick sequence with value v, without recursion and hence without any
possibility of nontermination or exception. -/
theorem degenerate_buildTicks (v : ℚ) (hv : IsDecimal v) (g : BuildTickOptions)
    (hb : g.bounds = .data) (hs : g.step = none) (hc : g.count = none)
    (hp : g.precision = none) :
    (Linear.buildTicks v v g).map Tick.value = [v] := by
  have hf : (10 : ℚ) ^ decimalPlaces v ≠ 0 := by positivity
  have hms : ¬ (max (2:ℚ) g.maxTicks - 1 < 0) := by
    have h2 : (2:ℚ) ≤ max 2 g.maxTicks := le_max_left _ _
    push_neg
    linarith
  have hnm : ((⌊v * 10 ^ decimalPlaces v + 1 / 2⌋ : ℤ) : ℚ) / 10 ^ decimalPlaces v = v := by
    have h := roundFac_exact v _ hf hv.exact
    unfold qRound at h
    exact h
  have hdp0 : decimalPlaces (0:ℚ) = 0 := by norm_num [decimalPlaces, dpAux]
  unfold Linear.buildTicks generateTicks gtState gtFront gtLoop gtEnd
  simp only [hb, hs, hc, hp]
  norm_num [niceNum, qFloor, qCeil, qRound, almostEquals, hms, hdp0, hnm, gtLoopGo]
  have hsv : (some v = none) = False := by simp
  simp [hsv, gtLoopGo]

/-- C4 amended witness at value 2 with the default settings. -/
theorem degenerate_buildTicks_witness :
    IsDecimal (2 : ℚ) ∧ (Linear.buildTicks 2 2 defaultTickSettings).map Tick.value = [2] :=
  ⟨by norm_num [IsDecimal],
    degenerate_buildTicks 2 (by norm_num [IsDecimal]) defaultTickSettings rfl rfl rfl rfl⟩


/-! Helper lemmas for the tick-generation structure theorems. -/

theorem log10_eval {q : ℚ} {z : ℤ} (h1 : (10:ℚ) ^ z ≤ q) (h2 : q < 10 ^ (z + 1)) :
    Int.log 10 q = z := by
  have hq : 0 < q := lt_of_lt_of_le (by positivity) h1
  have hb : 1 < (10:ℕ) := by norm_num
  refine le_antisymm ?_ ?_
  · have := (Int.lt_zpow_iff_log_lt hb hq).mp (by exact_mod_cast h2)
    omega
  · exact (Int.zpow_le_iff_le_log hb hq).mp (by exact_mod_cast h1)

theorem gtState_niceMin_eq (g : BuildTickOptions) (dr : MinMax) :
    ∃ y, (gtState g dr).niceMin =
      qRound (y * (gtState g dr).factor) / (gtState g dr).factor := by
  simp only [gtState]
  exact ⟨_, rfl⟩

theorem tickAt_zero (g : BuildTickOptions) (dr : MinMax) :
    tickAt (gtState g dr) 0 = (gtState g dr).niceMin := by
  obtain ⟨y, hy⟩ := gtState_niceMin_eq g dr
  have hf : (gtState g dr).factor ≠ 0 := ne_of_gt (gtState_factor_pos g dr)
  unfold tickAt
  rw [zero_mul, add_zero, hy, roundFac_idem _ _ hf]


theorem gtEnd_last (g : BuildTickOptions) (st : GTState) (body : List Tick) (mx : ℚ)
    (hmax : g.max = some mx) (hinc : g.includeBounds = true) :
    ((gtEnd g st body).map Tick.value).getLast? = some mx := by
  unfold gtEnd
  simp only [hmax]
  by_cases hne : st.niceMax = mx
  · have hcond : ¬ (g.includeBounds = true ∧ ¬ st.niceMax = mx) := fun h => h.2 hne
    rw [if_neg hcond, if_pos hne, hne]
    simp [List.getLast?_concat]
  · rw [if_pos ⟨hinc, hne⟩]
    cases hl : body.getLast? with
    | none => simp [List.getLast?_concat]
    | some t =>
      by_cases hae : almostEquals t.value mx (relativeLabelSize mx st.minSpacing g)
      · simp [hae, List.getLast?_concat]
      · simp [hae, List.getLast?_concat]

theorem gtEnd_head (g : BuildTickOptions) (st : GTState) (body : List Tick) (mx : ℚ)
    (hmax : g.max = some mx) (hinc : g.includeBounds = true)
    (hlen : 2 ≤ (gtEnd g st body).length) :
    (gtEnd g st body).head? = body.head? ∧ body ≠ [] := by
  unfold gtEnd at hlen ⊢
  simp only [hmax] at hlen ⊢
  by_cases hne : st.niceMax = mx
  · have hcond : ¬ (g.includeBounds = true ∧ ¬ st.niceMax = mx) := fun h => h.2 hne
    rw [if_neg hcond, if_pos hne] at hlen ⊢
    rcases body with _ | ⟨a, tl⟩
    · simp at hlen
    · simp
  · rw [if_pos ⟨hinc, hne⟩] at hlen ⊢
    cases hl : body.getLast? with
    | none =>
      have hb : body = [] := by
        cases body with
        | nil => rfl
        | cons a tl => simp at hl
      simp only [hb] at hlen
      simp at hlen
    | some t =>
      by_cases hae : almostEquals t.value mx (relativeLabelSize mx st.minSpacing g)
      · simp only [hae, if_true] at hlen ⊢
        rcases body with _ | ⟨a, tl⟩
        · simp at hl
        · rcases tl with _ | ⟨b, tl2⟩
          · have ht : a = t := by simpa using hl
            subst ht
            simp [hae] at hlen
          · constructor
            · simp
            · simp
      · simp only [hae, if_false] at hlen ⊢
        rcases body with _ | ⟨a, tl⟩
        · simp at hl
        · exact ⟨by simp, by simp⟩

theorem gtFront_cases (g : BuildTickOptions) (st : GTState) (mn : ℚ)
    (hmin : g.min = some mn) (hinc : g.includeBounds = true) :
    (∃ j, gtFront g st = ([⟨mn⟩], j)) ∨ (gtFront g st = ([], 0) ∧ st.niceMin = mn) := by
  unfold gtFront
  simp only [hmin]
  by_cases hne : st.niceMin = mn
  · right
    have hcond : ¬ (g.includeBounds = true ∧ ¬ st.niceMin = mn) := fun h => h.2 hne
    rw [if_neg hcond, hne, if_neg (lt_irrefl mn)]
    exact ⟨rfl, rfl⟩
  · left
    rw [if_pos ⟨hinc, hne⟩]
    exact ⟨_, rfl⟩

theorem gtLoop_head (g : BuildTickOptions) (st : GTState) :
    gtLoop g st 0 = [] ∨ (gtLoop g st 0).head? = some (tickAt st 0) := by
  unfold gtLoop
  cases htot : (⌈st.numSpaces⌉ - ((0 : ℕ) : ℤ)).toNat with
  | zero =>
    left
    rfl
  | succ n =>
    unfold gtLoopGo
    have h0 : (((0:ℕ) : ℚ)) = (0 : ℚ) := by norm_num
    rw [h0]
    cases g.max with
    | none => right; simp
    | some mx =>
      by_cases hlt : mx < tickAt st 0
      · left
        simp [hlt]
      · right
        simp [hlt]

theorem generateTicks_eq (g : BuildTickOptions) (dr : MinMax) (mn : ℚ)
    (hmin : g.min = some mn) :
    generateTicks g dr = gtEnd g (gtState g dr)
      ((gtFront g (gtState g dr)).1 ++
        (gtLoop g (gtState g dr) (gtFront g (gtState g dr)).2).map
          (fun v => (⟨v⟩ : Tick))) := by
  unfold generateTicks
  have h2 : (g.min = none) = False := by rw [hmin]; simp
  simp only [h2, false_and, and_false, if_false]


/-- C9 counterexample: with an explicit tick count of zero and pinned
bounds 0 and 10, numSpaces is minus one and spacing is minus ten (all
arithmetic stays finite), the emission loop runs zero times since
0 < -1 fails, the rounded niceMin and niceMax equal the pinned bounds
so neither boundary block fires, and the closing block pushes only
niceMax; the single tick value is 10, not the pinned min 0. -/
theorem bounds_inclusion_counterexample :
    (Linear.buildTicks 0 10 { defaultTickSettings with count := some 0 }).map Tick.value
      = [10] ∧ ((10 : ℚ) ≠ 0) := by
  constructor
  · norm_num [Linear.buildTicks, generateTicks, gtState, gtFront, gtLoop, gtLoopGo, gtEnd,
      tickAt, niceNum, qFloor, qCeil, qRound, decimalPlaces, dpAux, relativeLabelSize,
      almostEquals, almostWhole, defaultTickSettings, min_def, max_def, reduceCtorEq,
      show Int.log 10 (1:ℚ) = 0 from Int.log_one_right _]
  · norm_num

/-- C9 amended: for every LinearScale tick generation with includeBounds
true (min and max are always pinned by buildTicks), the last tick value
equals the pinned max exactly; and whenever the sequence has at least
two ticks, the first tick value equals the pinned min exactly.  With
degenerate option combinations (such as an explicit count of zero) the
sequence can collapse to the single tick at max, in which case the
first tick differs from min. -/
theorem bounds_inclusion (smin smax : ℚ) (g : BuildTickOptions)
    (hinc : g.includeBounds = true) :
    ((Linear.buildTicks smin smax g).map Tick.value).getLast? = some smax ∧
    (2 ≤ (Linear.buildTicks smin smax g).length →
      ((Linear.buildTicks smin smax g).map Tick.value).head? = some smin) := by
  set g' : BuildTickOptions := { g with min := some smin, max := some smax, maxTicks := max 2 g.maxTicks } with hg'
  have hbt : Linear.buildTicks smin smax g = generateTicks g' ⟨smin, smax⟩ := rfl
  have hmin : g'.min = some smin := rfl
  have hmax : g'.max = some smax := rfl
  have hinc' : g'.includeBounds = true := hinc
  set st := gtState g' ⟨smin, smax⟩ with hst
  have heq := generateTicks_eq g' ⟨smin, smax⟩ smin hmin
  rw [hbt, heq]
  set body := (gtFront g' st).1 ++
    (gtLoop g' st (gtFront g' st).2).map (fun v => (⟨v⟩ : Tick)) with hbody
  refine ⟨gtEnd_last g' st body smax hmax hinc', ?_⟩
  intro hlen
  obtain ⟨hhead, hne⟩ := gtEnd_head g' st body smax hmax hinc' hlen
  rw [List.head?_map, hhead]
  rcases gtFront_cases g' st smin hmin hinc' with ⟨j, hfr⟩ | ⟨hfr, hnm⟩
  · rw [hbody, hfr]
    simp
  · rw [hbody, hfr]
    rcases gtLoop_head g' st with hl | hl
    · rw [hfr] at hbody
      rw [hbody, hl] at hne
      simp at hne
    · simp only [List.nil_append]
      rw [List.head?_map, hl, tickAt_zero, ← hst, hnm]
      rfl

/-- C9 amended witness on the extent 0 to 10 with default settings. -/
theorem bounds_inclusion_witness :
    ((Linear.buildTicks 0 10 defaultTickSettings).map Tick.value).getLast? = some 10 ∧
    (2 ≤ (Linear.buildTicks 0 10 defaultTickSettings).length →
      ((Linear.buildTicks 0 10 defaultTickSettings).map Tick.value).head? = some 0) :=
  bounds_inclusion 0 10 defaultTickSettings rfl

/-- C10: for every extent, LogarithmicScale.buildTicks returns a
nonempty sequence whose last element's value is exactly the extent max:
the trailing tick is appended unconditionally after the stepping loop,
also when the loop emits nothing because min equals or exceeds max. -/
theorem log_buildTicks_last (smin smax : ℚ) :
    Logarithmic.buildTicks smin smax ≠ [] ∧
    ((Logarithmic.buildTicks smin smax).map LogTick.value).getLast? = some smax := by
  unfold Logarithmic.buildTicks Logarithmic.generateTicks
  simp


theorem decimal_roundtrip (g : AxisGeom) (d : ℚ)
    (hw : (if g.horizontal then g.width else g.height) ≠ 0) :
    getDecimalForPixel g (getPixelForDecimal g d) = d := by
  unfold getPixelForDecimal getDecimalForPixel
  cases hh : g.horizontal
  · have hw' : g.height ≠ 0 := by simpa [hh] using hw
    simp only [hh, Bool.false_eq_true, if_false]
    field_simp
  · have hw' : g.width ≠ 0 := by simpa [hh] using hw
    simp only [hh, if_true]
    field_simp

theorem rdecimal_roundtrip (g : RAxisGeom) (d : ℝ)
    (hw : (if g.horizontal then g.width else g.height) ≠ 0) :
    rGetDecimalForPixel g (rGetPixelForDecimal g d) = d := by
  unfold rGetPixelForDecimal rGetDecimalForPixel
  cases hh : g.horizontal
  · have hw' : g.height ≠ 0 := by simpa [hh] using hw
    simp only [hh, Bool.false_eq_true, if_false]
    field_simp
  · have hw' : g.width ≠ 0 := by simpa [hh] using hw
    simp only [hh, if_true]
    field_simp


/-- C7: pixel round-trip.  For the linear scale over exact rationals
and the logarithmic scale over the reals, with a nondegenerate domain
(and a positive min for the logarithmic scale), a nonzero drawing box
in the axis direction, and any value strictly inside the domain,
getValueForPixel of getPixelForValue returns the value exactly, hence
in particular within floating-point tolerance. -/
theorem pixel_roundtrip :
    (∀ (smin smax v : ℚ) (g : AxisGeom), smin < smax → smin < v → v < smax →
      (if g.horizontal then g.width else g.height) ≠ 0 →
      Linear.getValueForPixel smin smax g (Linear.getPixelForValue smin smax g v) = v) ∧
    (∀ (smin smax v : ℝ) (g : RAxisGeom), 0 < smin → smin < smax → smin < v → v < smax →
      (if g.horizontal then g.width else g.height) ≠ 0 →
      Logarithmic.getValueForPixel smin smax g (Logarithmic.getPixelForValue smin smax g v) = v) := by
  constructor
  · intro smin smax v g hlt hv1 hv2 hw
    have hr : smax - smin ≠ 0 := sub_ne_zero.mpr (ne_of_gt hlt)
    unfold Linear.getPixelForValue Linear.getValueForPixel
    rw [if_neg hr, if_neg hr, decimal_roundtrip g _ hw]
    field_simp
  · intro smin smax v g h0 hlt hv1 hv2 hw
    have hv0 : 0 < v := lt_trans h0 hv1
    have hvne : v ≠ 0 := ne_of_gt hv0
    have hvnm : v ≠ smin := ne_of_gt hv1
    have hlr : Real.logb 10 smin < Real.logb 10 smax :=
      Real.logb_lt_logb (by norm_num) h0 hlt
    have hrange : Real.logb 10 smax - Real.logb 10 smin ≠ 0 :=
      sub_ne_zero.mpr (ne_of_gt hlr)
    unfold Logarithmic.getPixelForValue Logarithmic.getValueForPixel
    simp only [if_neg hvne, if_neg hvnm]
    rw [rdecimal_roundtrip g _ hw, div_mul_cancel₀ _ hrange,
      show Real.logb 10 smin + (Real.logb 10 v - Real.logb 10 smin) = Real.logb 10 v by ring]
    exact Real.rpow_logb (by norm_num) (by norm_num) hv0

/-- C7 witness: linear round-trip of 25 on the domain 0 to 100 and
logarithmic round-trip of 10 on the domain 1 to 100. -/
theorem pixel_roundtrip_witness :
    Linear.getValueForPixel 0 100 ⟨true, 400, 300, 7, 9⟩
      (Linear.getPixelForValue 0 100 ⟨true, 400, 300, 7, 9⟩ 25) = 25 ∧
    Logarithmic.getValueForPixel 1 100 ⟨true, 2, 3, 0, 5⟩
      (Logarithmic.getPixelForValue 1 100 ⟨true, 2, 3, 0, 5⟩ 10) = 10 :=
  ⟨pixel_roundtrip.1 0 100 25 ⟨true, 400, 300, 7, 9⟩ (by norm_num) (by norm_num)
      (by norm_num) (by norm_num),
    pixel_roundtrip.2 1 100 10 ⟨true, 2, 3, 0, 5⟩ (by norm_num) (by norm_num)
      (by norm_num) (by norm_num) (by norm_num)⟩


/-! Helper lemmas evaluating the logarithmic tick generation on the domain 1 to 1000. -/

theorem logLoop_succ (mx b o : ℚ) (n : ℕ) (s : LogLoopState) :
    Logarithmic.loop mx b o (n + 1) s =
      (if s.value < mx then
        (⟨s.value, isMajor s.value, s.significand⟩ ::
            (Logarithmic.loop mx b o n (Logarithmic.loopStep b o s)).1,
          (Logarithmic.loop mx b o n (Logarithmic.loopStep b o s)).2)
      else ([], s.value, s.significand)) := rfl

theorem logC3step_29 : Logarithmic.loop 1000 0 0 99971 ⟨1000, 10, 2, 1⟩ = ([], 1000, 10) := by
  rw [show (99971:ℕ) = 99970 + 1 from rfl, logLoop_succ]
  norm_num

theorem logC3step_28 : Logarithmic.loop 1000 0 0 99972 ⟨900, 9, 2, 1⟩ = ([⟨900, false, 9⟩], 1000, 10) := by
  rw [show (99972:ℕ) = 99971 + 1 from rfl, logLoop_succ]
  rw [if_pos (by norm_num : (900:ℚ) < 1000)]
  norm_num [Logarithmic.loopStep, isMajor, log10Floor, qRound,
    logC3step_29, decide_eq_true_eq, decide_eq_false_iff_not,
    show Nat.log 10 900 = 2 from Nat.log_eq_of_pow_le_of_lt_pow (by norm_num) (by norm_num)]

theorem logC3step_27 : Logarithmic.loop 1000 0 0 99973 ⟨800, 8, 2, 1⟩ = ([⟨800, false, 8⟩, ⟨900, false, 9⟩], 1000, 10) := by
  rw [show (99973:ℕ) = 99972 + 1 from rfl, logLoop_succ]
  rw [if_pos (by norm_num : (800:ℚ) < 1000)]
  norm_num [Logarithmic.loopStep, isMajor, log10Floor, qRound,
    logC3step_28, decide_eq_true_eq, decide_eq_false_iff_not,
    show Nat.log 10 800 = 2 from Nat.log_eq_of_pow_le_of_lt_pow (by norm_num) (by norm_num)]

theorem logC3step_26 : Logarithmic.loop 1000 0 0 99974 ⟨700, 7, 2, 1⟩ = ([⟨700, false, 7⟩, ⟨800, false, 8⟩, ⟨900, false, 9⟩], 1000, 10) := by
  rw [show (99974:ℕ) = 99973 + 1 from rfl, logLoop_succ]
  rw [if_pos (by norm_num : (700:ℚ) < 1000)]
  norm_num [Logarithmic.loopStep, isMajor, log10Floor, qRound,
    logC3step_27, decide_eq_true_eq, decide_eq_false_iff_not,
    show Nat.log 10 700 = 2 from Nat.log_eq_of_pow_le_of_lt_pow (by norm_num) (by norm_num)]

theorem logC3step_25 : Logarithmic.loop 1000 0 0 99975 ⟨600, 6, 2, 1⟩ = ([⟨600, false, 6⟩, ⟨700, false, 7⟩, ⟨800, false, 8⟩, ⟨900, false, 9⟩], 1000, 10) := by
  rw [show (99975:ℕ) = 99974 + 1 from rfl, logLoop_succ]
  rw [if_pos (by norm_num : (600:ℚ) < 1000)]
  norm_num [Logarithmic.loopStep, isMajor, log10Floor, qRound,
    logC3step_26, decide_eq_true_eq, decide_eq_false_iff_not,
    show Nat.log 10 600 = 2 from Nat.log_eq_of_pow_le_of_lt_pow (by norm_num) (by norm_num)]

theorem logC3step_24 : Logarithmic.loop 1000 0 0 99976 ⟨500, 5, 2, 1⟩ = ([⟨500, false, 5⟩, ⟨600, false, 6⟩, ⟨700, false, 7⟩, ⟨800, false, 8⟩, ⟨900, false, 9⟩], 1000, 10) := by
  rw [show (99976:ℕ) = 99975 + 1 from rfl, logLoop_succ]
  rw [if_pos (by norm_num : (500:ℚ) < 1000)]
  norm_num [Logarithmic.loopStep, isMajor, log10Floor, qRound,
    logC3step_25, decide_eq_true_eq, decide_eq_false_iff_not,
    show Nat.log 10 500 = 2 from Nat.log_eq_of_pow_le_of_lt_pow (by norm_num) (by norm_num)]

theorem logC3step_23 : Logarithmic.loop 1000 0 0 99977 ⟨400, 4, 2, 1⟩ = ([⟨400, false, 4⟩, ⟨500, false, 5⟩, ⟨600, false, 6⟩, ⟨700, false, 7⟩, ⟨800, false, 8⟩, ⟨900, false, 9⟩], 1000, 10) := by
  rw [show (99977:ℕ) = 99976 + 1 from rfl, logLoop_succ]
  rw [if_pos (by norm_num : (400:ℚ) < 1000)]
  norm_num [Logarithmic.loopStep, isMajor, log10Floor, qRound,
    logC3step_24, decide_eq_true_eq, decide_eq_false_iff_not,
    show Nat.log 10 400 = 2 from Nat.log_eq_of_pow_le_of_lt_pow (by norm_num) (by norm_num)]

theorem logC3step_22 : Logarithmic.loop 1000 0 0 99978 ⟨300, 3, 2, 1⟩ = ([⟨300, false, 3⟩, ⟨400, false, 4⟩, ⟨500, false, 5⟩, ⟨600, false, 6⟩, ⟨700, false, 7⟩, ⟨800, false, 8⟩, ⟨900, false, 9⟩], 1000, 10) := by
  rw [show (99978:ℕ) = 99977 + 1 from rfl, logLoop_succ]
  rw [if_pos (by norm_num : (300:ℚ) < 1000)]
  norm_num [Logarithmic.loopStep, isMajor, log10Floor, qRound,
    logC3step_23, decide_eq_true_eq, decide_eq_false_iff_not,
    show Nat.log 10 300 = 2 from Nat.log_eq_of_pow_le_of_lt_pow (by norm_num) (by norm_num)]

theorem logC3step_21 : Logarithmic.loop 1000 0 0 99979 ⟨200, 2, 2, 1⟩ = ([⟨200, false, 2⟩, ⟨300, false, 3⟩, ⟨400, false, 4⟩, ⟨500, false, 5⟩, ⟨600, false, 6⟩, ⟨700, false, 7⟩, ⟨800, false, 8⟩, ⟨900, false, 9⟩], 1000, 10) := by
  rw [show (99979:ℕ) = 99978 + 1 from rfl, logLoop_succ]
  rw [if_pos (by norm_num : (200:ℚ) < 1000)]
  norm_num [Logarithmic.loopStep, isMajor, log10Floor, qRound,
    logC3step_22, decide_eq_true_eq, decide_eq_false_iff_not,
    show Nat.log 10 200 = 2 from Nat.log_eq_of_pow_le_of_lt_pow (by norm_num) (by norm_num)]

theorem logC3step_20 : Logarithmic.loop 1000 0 0 99980 ⟨150, 15, 1, 1⟩ = ([⟨150, false, 15⟩, ⟨200, false, 2⟩, ⟨300, false, 3⟩, ⟨400, false, 4⟩, ⟨500, false, 5⟩, ⟨600, false, 6⟩, ⟨700, false, 7⟩, ⟨800, false, 8⟩, ⟨900, false, 9⟩], 1000, 10) := by
  rw [show (99980:ℕ) = 99979 + 1 from rfl, logLoop_succ]
  rw [if_pos (by norm_num : (150:ℚ) < 1000)]
  norm_num [Logarithmic.loopStep, isMajor, log10Floor, qRound,
    logC3step_21, decide_eq_true_eq, decide_eq_false_iff_not,
    show Nat.log 10 150 = 2 from Nat.log_eq_of_pow_le_of_lt_pow (by norm_num) (by norm_num)]

theorem logC3step_19 : Logarithmic.loop 1000 0 0 99981 ⟨100, 10, 1, 1⟩ = ([⟨100, true, 10⟩, ⟨150, false, 15⟩, ⟨200, false, 2⟩, ⟨300, false, 3⟩, ⟨400, false, 4⟩, ⟨500, false, 5⟩, ⟨600, false, 6⟩, ⟨700, false, 7⟩, ⟨800, false, 8⟩, ⟨900, false, 9⟩], 1000, 10) := by
  rw [show (99981:ℕ) = 99980 + 1 from rfl, logLoop_succ]
  rw [if_pos (by norm_num : (100:ℚ) < 1000)]
  norm_num [Logarithmic.loopStep, isMajor, log10Floor, qRound,
    logC3step_20, decide_eq_true_eq, decide_eq_false_iff_not,
    show Nat.log 10 100 = 2 from Nat.log_eq_of_pow_le_of_lt_pow (by norm_num) (by norm_num)]

theorem logC3step_18 : Logarithmic.loop 1000 0 0 99982 ⟨90, 9, 1, 1⟩ = ([⟨90, false, 9⟩, ⟨100, true, 10⟩, ⟨150, false, 15⟩, ⟨200, false, 2⟩, ⟨300, false, 3⟩, ⟨400, false, 4⟩, ⟨500, false, 5⟩, ⟨600, false, 6⟩, ⟨700, false, 7⟩, ⟨800, false, 8⟩, ⟨900, false, 9⟩], 1000, 10) := by
  rw [show (99982:ℕ) = 99981 + 1 from rfl, logLoop_succ]
  rw [if_pos (by norm_num : (90:ℚ) < 1000)]
  norm_num [Logarithmic.loopStep, isMajor, log10Floor, qRound,
    logC3step_19, decide_eq_true_eq, decide_eq_false_iff_not,
    show Nat.log 10 90 = 1 from Nat.log_eq_of_pow_le_of_lt_pow (by norm_num) (by norm_num)]

theorem logC3step_17 : Logarithmic.loop 1000 0 0 99983 ⟨80, 8, 1, 1⟩ = ([⟨80, false, 8⟩, ⟨90, false, 9⟩, ⟨100, true, 10⟩, ⟨150, false, 15⟩, ⟨200, false, 2⟩, ⟨300, false, 3⟩, ⟨400, false, 4⟩, ⟨500, false, 5⟩, ⟨600, false, 6⟩, ⟨700, false, 7⟩, ⟨800, false, 8⟩, ⟨900, false, 9⟩], 1000, 10) := by
  rw [show (99983:ℕ) = 99982 + 1 from rfl, logLoop_succ]
  rw [if_pos (by norm_num : (80:ℚ) < 1000)]
  norm_num [Logarithmic.loopStep, isMajor, log10Floor, qRound,
    logC3step_18, decide_eq_true_eq, decide_eq_false_iff_not,
    show Nat.log 10 80 = 1 from Nat.log_eq_of_pow_le_of_lt_pow (by norm_num) (by norm_num)]

theorem logC3step_16 : Logarithmic.loop 1000 0 0 99984 ⟨70, 7, 1, 1⟩ = ([⟨70, false, 7⟩, ⟨80, false, 8⟩, ⟨90, false, 9⟩, ⟨100, true, 10⟩, ⟨150, false, 15⟩, ⟨200, false, 2⟩, ⟨300, false, 3⟩, ⟨400, false, 4⟩, ⟨500, false, 5⟩, ⟨600, false, 6⟩, ⟨700, false, 7⟩, ⟨800, false, 8⟩, ⟨900, false, 9⟩], 1000, 10) := by
  rw [show (99984:ℕ) = 99983 + 1 from rfl, logLoop_succ]
  rw [if_pos (by norm_num : (70:ℚ) < 1000)]
  norm_num [Logarithmic.loopStep, isMajor, log10Floor, qRound,
    logC3step_17, decide_eq_true_eq, decide_eq_false_iff_not,
    show Nat.log 10 70 = 1 from Nat.log_eq_of_pow_le_of_lt_pow (by norm_num) (by norm_num)]

theorem logC3step_15 : Logarithmic.loop 1000 0 0 99985 ⟨60, 6, 1, 1⟩ = ([⟨60, false, 6⟩, ⟨70, false, 7⟩, ⟨80, false, 8⟩, ⟨90, false, 9⟩, ⟨100, true, 10⟩, ⟨150, false, 15⟩, ⟨200, false, 2⟩, ⟨300, false, 3⟩, ⟨400, false, 4⟩, ⟨500, false, 5⟩, ⟨600, false, 6⟩, ⟨700, false, 7⟩, ⟨800, false, 8⟩, ⟨900, false, 9⟩], 1000, 10) := by
  rw [show (99985:ℕ) = 99984 + 1 from rfl, logLoop_succ]
  rw [if_pos (by norm_num : (60:ℚ) < 1000)]
  norm_num [Logarithmic.loopStep, isMajor, log10Floor, qRound,
    logC3step_16, decide_eq_true_eq, decide_eq_false_iff_not,
    show Nat.log 10 60 = 1 from Nat.log_eq_of_pow_le_of_lt_pow (by norm_num) (by norm_num)]

theorem logC3step_14 : Logarithmic.loop 1000 0 0 99986 ⟨50, 5, 1, 1⟩ = ([⟨50, false, 5⟩, ⟨60, false, 6⟩, ⟨70, false, 7⟩, ⟨80, false, 8⟩, ⟨90, false, 9⟩, ⟨100, true, 10⟩, ⟨150, false, 15⟩, ⟨200, false, 2⟩, ⟨300, false, 3⟩, ⟨400, false, 4⟩, ⟨500, false, 5⟩, ⟨600, false, 6⟩, ⟨700, false, 7⟩, ⟨800, false, 8⟩, ⟨900, false, 9⟩], 1000, 10) := by
  rw [show (99986:ℕ) = 99985 + 1 from rfl, logLoop_succ]
  rw [if_pos (by norm_num : (50:ℚ) < 1000)]
  norm_num [Logarithmic.loopStep, isMajor, log10Floor, qRound,
    logC3step_15, decide_eq_true_eq, decide_eq_false_iff_not,
    show Nat.log 10 50 = 1 from Nat.log_eq_of_pow_le_of_lt_pow (by norm_num) (by norm_num)]

theorem logC3step_13 : Logarithmic.loop 1000 0 0 99987 ⟨40, 4, 1, 1⟩ = ([⟨40, false, 4⟩, ⟨50, false, 5⟩, ⟨60, false, 6⟩, ⟨70, false, 7⟩, ⟨80, false, 8⟩, ⟨90, false, 9⟩, ⟨100, true, 10⟩, ⟨150, false, 15⟩, ⟨200, false, 2⟩, ⟨300, false, 3⟩, ⟨400, false, 4⟩, ⟨500, false, 5⟩, ⟨600, false, 6⟩, ⟨700, false, 7⟩, ⟨800, false, 8⟩, ⟨900, false, 9⟩], 1000, 10) := by
  rw [show (99987:ℕ) = 99986 + 1 from rfl, logLoop_succ]
  rw [if_pos (by norm_num : (40:ℚ) < 1000)]
  norm_num [Logarithmic.loopStep, isMajor, log10Floor, qRound,
    logC3step_14, decide_eq_true_eq, decide_eq_false_iff_not,
    show Nat.log 10 40 = 1 from Nat.log_eq_of_pow_le_of_lt_pow (by norm_num) (by norm_num)]

theorem logC3step_12 : Logarithmic.loop 1000 0 0 99988 ⟨30, 3, 1, 1⟩ = ([⟨30, false, 3⟩, ⟨40, false, 4⟩, ⟨50, false, 5⟩, ⟨60, false, 6⟩, ⟨70, false, 7⟩, ⟨80, false, 8⟩, ⟨90, false, 9⟩, ⟨100, true, 10⟩, ⟨150, false, 15⟩, ⟨200, false, 2⟩, ⟨300, false, 3⟩, ⟨400, false, 4⟩, ⟨500, false, 5⟩, ⟨600, false, 6⟩, ⟨700, false, 7⟩, ⟨800, false, 8⟩, ⟨900, false, 9⟩], 1000, 10) := by
  rw [show (99988:ℕ) = 99987 + 1 from rfl, logLoop_succ]
  rw [if_pos (by norm_num : (30:ℚ) < 1000)]
  norm_num [Logarithmic.loopStep, isMajor, log10Floor, qRound,
    logC3step_13, decide_eq_true_eq, decide_eq_false_iff_not,
    show Nat.log 10 30 = 1 from Nat.log_eq_of_pow_le_of_lt_pow (by norm_num) (by norm_num)]

theorem logC3step_11 : Logarithmic.loop 1000 0 0 99989 ⟨20, 2, 1, 1⟩ = ([⟨20, false, 2⟩, ⟨30, false, 3⟩, ⟨40, false, 4⟩, ⟨50, false, 5⟩, ⟨60, false, 6⟩, ⟨70, false, 7⟩, ⟨80, false, 8⟩, ⟨90, false, 9⟩, ⟨100, true, 10⟩, ⟨150, false, 15⟩, ⟨200, false, 2⟩, ⟨300, false, 3⟩, ⟨400, false, 4⟩, ⟨500, false, 5⟩, ⟨600, false, 6⟩, ⟨700, false, 7⟩, ⟨800, false, 8⟩, ⟨900, false, 9⟩], 1000, 10) := by
  rw [show (99989:ℕ) = 99988 + 1 from rfl, logLoop_succ]
  rw [if_pos (by norm_num : (20:ℚ) < 1000)]
  norm_num [Logarithmic.loopStep, isMajor, log10Floor, qRound,
    logC3step_12, decide_eq_true_eq, decide_eq_false_iff_not,
    show Nat.log 10 20 = 1 from Nat.log_eq_of_pow_le_of_lt_pow (by norm_num) (by norm_num)]

theorem logC3step_10 : Logarithmic.loop 1000 0 0 99990 ⟨15, 15, 0, 1⟩ = ([⟨15, false, 15⟩, ⟨20, false, 2⟩, ⟨30, false, 3⟩, ⟨40, false, 4⟩, ⟨50, false, 5⟩, ⟨60, false, 6⟩, ⟨70, false, 7⟩, ⟨80, false, 8⟩, ⟨90, false, 9⟩, ⟨100, true, 10⟩, ⟨150, false, 15⟩, ⟨200, false, 2⟩, ⟨300, false, 3⟩, ⟨400, false, 4⟩, ⟨500, false, 5⟩, ⟨600, false, 6⟩, ⟨700, false, 7⟩, ⟨800, false, 8⟩, ⟨900, false, 9⟩], 1000, 10) := by
  rw [show (99990:ℕ) = 99989 + 1 from rfl, logLoop_succ]
  rw [if_pos (by norm_num : (15:ℚ) < 1000)]
  norm_num [Logarithmic.loopStep, isMajor, log10Floor, qRound,
    logC3step_11, decide_eq_true_eq, decide_eq_false_iff_not,
    show Nat.log 10 15 = 1 from Nat.log_eq_of_pow_le_of_lt_pow (by norm_num) (by norm_num)]

theorem logC3step_9 : Logarithmic.loop 1000 0 0 99991 ⟨10, 10, 0, 1⟩ = ([⟨10, true, 10⟩, ⟨15, false, 15⟩, ⟨20, false, 2⟩, ⟨30, false, 3⟩, ⟨40, false, 4⟩, ⟨50, false, 5⟩, ⟨60, false, 6⟩, ⟨70, false, 7⟩, ⟨80, false, 8⟩, ⟨90, false, 9⟩, ⟨100, true, 10⟩, ⟨150, false, 15⟩, ⟨200, false, 2⟩, ⟨300, false, 3⟩, ⟨400, false, 4⟩, ⟨500, false, 5⟩, ⟨600, false, 6⟩, ⟨700, false, 7⟩, ⟨800, false, 8⟩, ⟨900, false, 9⟩], 1000, 10) := by
  rw [show (99991:ℕ) = 99990 + 1 from rfl, logLoop_succ]
  rw [if_pos (by norm_num : (10:ℚ) < 1000)]
  norm_num [Logarithmic.loopStep, isMajor, log10Floor, qRound,
    logC3step_10, decide_eq_true_eq, decide_eq_false_iff_not,
    show Nat.log 10 10 = 1 from Nat.log_eq_of_pow_le_of_lt_pow (by norm_num) (by norm_num)]

theorem logC3step_8 : Logarithmic.loop 1000 0 0 99992 ⟨9, 9, 0, 1⟩ = ([⟨9, false, 9⟩, ⟨10, true, 10⟩, ⟨15, false, 15⟩, ⟨20, false, 2⟩, ⟨30, false, 3⟩, ⟨40, false, 4⟩, ⟨50, false, 5⟩, ⟨60, false, 6⟩, ⟨70, false, 7⟩, ⟨80, false, 8⟩, ⟨90, false, 9⟩, ⟨100, true, 10⟩, ⟨150, false, 15⟩, ⟨200, false, 2⟩, ⟨300, false, 3⟩, ⟨400, false, 4⟩, ⟨500, false, 5⟩, ⟨600, false, 6⟩, ⟨700, false, 7⟩, ⟨800, false, 8⟩, ⟨900, false, 9⟩], 1000, 10) := by
  rw [show (99992:ℕ) = 99991 + 1 from rfl, logLoop_succ]
  rw [if_pos (by norm_num : (9:ℚ) < 1000)]
  norm_num [Logarithmic.loopStep, isMajor, log10Floor, qRound,
    logC3step_9, decide_eq_true_eq, decide_eq_false_iff_not,
    show Nat.log 10 9 = 0 from Nat.log_eq_of_pow_le_of_lt_pow (by norm_num) (by norm_num)]

theorem logC3step_7 : Logarithmic.loop 1000 0 0 99993 ⟨8, 8, 0, 1⟩ = ([⟨8, false, 8⟩, ⟨9, false, 9⟩, ⟨10, true, 10⟩, ⟨15, false, 15⟩, ⟨20, false, 2⟩, ⟨30, false, 3⟩, ⟨40, false, 4⟩, ⟨50, false, 5⟩, ⟨60, false, 6⟩, ⟨70, false, 7⟩, ⟨80, false, 8⟩, ⟨90, false, 9⟩, ⟨100, true, 10⟩, ⟨150, false, 15⟩, ⟨200, false, 2⟩, ⟨300, false, 3⟩, ⟨400, false, 4⟩, ⟨500, false, 5⟩, ⟨600, false, 6⟩, ⟨700, false, 7⟩, ⟨800, false, 8⟩, ⟨900, false, 9⟩], 1000, 10) := by
  rw [show (99993:ℕ) = 99992 + 1 from rfl, logLoop_succ]
  rw [if_pos (by norm_num : (8:ℚ) < 1000)]
  norm_num [Logarithmic.loopStep, isMajor, log10Floor, qRound,
    logC3step_8, decide_eq_true_eq, decide_eq_false_iff_not,
    show Nat.log 10 8 = 0 from Nat.log_eq_of_pow_le_of_lt_pow (by norm_num) (by norm_num)]

theorem logC3step_6 : Logarithmic.loop 1000 0 0 99994 ⟨7, 7, 0, 1⟩ = ([⟨7, false, 7⟩, ⟨8, false, 8⟩, ⟨9, false, 9⟩, ⟨10, true, 10⟩, ⟨15, false, 15⟩, ⟨20, false, 2⟩, ⟨30, false, 3⟩, ⟨40, false, 4⟩, ⟨50, false, 5⟩, ⟨60, false, 6⟩, ⟨70, false, 7⟩, ⟨80, false, 8⟩, ⟨90, false, 9⟩, ⟨100, true, 10⟩, ⟨150, false, 15⟩, ⟨200, false, 2⟩, ⟨300, false, 3⟩, ⟨400, false, 4⟩, ⟨500, false, 5⟩, ⟨600, false, 6⟩, ⟨700, false, 7⟩, ⟨800, false, 8⟩, ⟨900, false, 9⟩], 1000, 10) := by
  rw [show (99994:ℕ) = 99993 + 1 from rfl, logLoop_succ]
  rw [if_pos (by norm_num : (7:ℚ) < 1000)]
  norm_num [Logarithmic.loopStep, isMajor, log10Floor, qRound,
    logC3step_7, decide_eq_true_eq, decide_eq_false_iff_not,
    show Nat.log 10 7 = 0 from Nat.log_eq_of_pow_le_of_lt_pow (by norm_num) (by norm_num)]

theorem logC3step_5 : Logarithmic.loop 1000 0 0 99995 ⟨6, 6, 0, 1⟩ = ([⟨6, false, 6⟩, ⟨7, false, 7⟩, ⟨8, false, 8⟩, ⟨9, false, 9⟩, ⟨10, true, 10⟩, ⟨15, false, 15⟩, ⟨20, false, 2⟩, ⟨30, false, 3⟩, ⟨40, false, 4⟩, ⟨50, false, 5⟩, ⟨60, false, 6⟩, ⟨70, false, 7⟩, ⟨80, false, 8⟩, ⟨90, false, 9⟩, ⟨100, true, 10⟩, ⟨150, false, 15⟩, ⟨200, false, 2⟩, ⟨300, false, 3⟩, ⟨400, false, 4⟩, ⟨500, false, 5⟩, ⟨600, false, 6⟩, ⟨700, false, 7⟩, ⟨800, false, 8⟩, ⟨900, false, 9⟩], 1000, 10) := by
  rw [show (99995:ℕ) = 99994 + 1 from rfl, logLoop_succ]
  rw [if_pos (by norm_num : (6:ℚ) < 1000)]
  norm_num [Logarithmic.loopStep, isMajor, log10Floor, qRound,
    logC3step_6, decide_eq_true_eq, decide_eq_false_iff_not,
    show Nat.log 10 6 = 0 from Nat.log_eq_of_pow_le_of_lt_pow (by norm_num) (by norm_num)]

theorem logC3step_4 : Logarithmic.loop 1000 0 0 99996 ⟨5, 5, 0, 1⟩ = ([⟨5, false, 5⟩, ⟨6, false, 6⟩, ⟨7, false, 7⟩, ⟨8, false, 8⟩, ⟨9, false, 9⟩, ⟨10, true, 10⟩, ⟨15, false, 15⟩, ⟨20, false, 2⟩, ⟨30, false, 3⟩, ⟨40, false, 4⟩, ⟨50, false, 5⟩, ⟨60, false, 6⟩, ⟨70, false, 7⟩, ⟨80, false, 8⟩, ⟨90, false, 9⟩, ⟨100, true, 10⟩, ⟨150, false, 15⟩, ⟨200, false, 2⟩, ⟨300, false, 3⟩, ⟨400, false, 4⟩, ⟨500, false, 5⟩, ⟨600, false, 6⟩, ⟨700, false, 7⟩, ⟨800, false, 8⟩, ⟨900, false, 9⟩], 1000, 10) := by
  rw [show (99996:ℕ) = 99995 + 1 from rfl, logLoop_succ]
  rw [if_pos (by norm_num : (5:ℚ) < 1000)]
  norm_num [Logarithmic.loopStep, isMajor, log10Floor, qRound,
    logC3step_5, decide_eq_true_eq, decide_eq_false_iff_not,
    show Nat.log 10 5 = 0 from Nat.log_eq_of_pow_le_of_lt_pow (by norm_num) (by norm_num)]

theorem logC3step_3 : Logarithmic.loop 1000 0 0 99997 ⟨4, 4, 0, 1⟩ = ([⟨4, false, 4⟩, ⟨5, false, 5⟩, ⟨6, false, 6⟩, ⟨7, false, 7⟩, ⟨8, false, 8⟩, ⟨9, false, 9⟩, ⟨10, true, 10⟩, ⟨15, false, 15⟩, ⟨20, false, 2⟩, ⟨30, false, 3⟩, ⟨40, false, 4⟩, ⟨50, false, 5⟩, ⟨60, false, 6⟩, ⟨70, false, 7⟩, ⟨80, false, 8⟩, ⟨90, false, 9⟩, ⟨100, true, 10⟩, ⟨150, false, 15⟩, ⟨200, false, 2⟩, ⟨300, false, 3⟩, ⟨400, false, 4⟩, ⟨500, false, 5⟩, ⟨600, false, 6⟩, ⟨700, false, 7⟩, ⟨800, false, 8⟩, ⟨900, false, 9⟩], 1000, 10) := by
  rw [show (99997:ℕ) = 99996 + 1 from rfl, logLoop_succ]
  rw [if_pos (by norm_num : (4:ℚ) < 1000)]
  norm_num [Logarithmic.loopStep, isMajor, log10Floor, qRound,
    logC3step_4, decide_eq_true_eq, decide_eq_false_iff_not,
    show Nat.log 10 4 = 0 from Nat.log_eq_of_pow_le_of_lt_pow (by norm_num) (by norm_num)]

theorem logC3step_2 : Logarithmic.loop 1000 0 0 99998 ⟨3, 3, 0, 1⟩ = ([⟨3, false, 3⟩, ⟨4, false, 4⟩, ⟨5, false, 5⟩, ⟨6, false, 6⟩, ⟨7, false, 7⟩, ⟨8, false, 8⟩, ⟨9, false, 9⟩, ⟨10, true, 10⟩, ⟨15, false, 15⟩, ⟨20, false, 2⟩, ⟨30, false, 3⟩, ⟨40, false, 4⟩, ⟨50, false, 5⟩, ⟨60, false, 6⟩, ⟨70, false, 7⟩, ⟨80, false, 8⟩, ⟨90, false, 9⟩, ⟨100, true, 10⟩, ⟨150, false, 15⟩, ⟨200, false, 2⟩, ⟨300, false, 3⟩, ⟨400, false, 4⟩, ⟨500, false, 5⟩, ⟨600, false, 6⟩, ⟨700, false, 7⟩, ⟨800, false, 8⟩, ⟨900, false, 9⟩], 1000, 10) := by
  rw [show (99998:ℕ) = 99997 + 1 from rfl, logLoop_succ]
  rw [if_pos (by norm_num : (3:ℚ) < 1000)]
  norm_num [Logarithmic.loopStep, isMajor, log10Floor, qRound,
    logC3step_3, decide_eq_true_eq, decide_eq_false_iff_not,
    show Nat.log 10 3 = 0 from Nat.log_eq_of_pow_le_of_lt_pow (by norm_num) (by norm_num)]

theorem logC3step_1 : Logarithmic.loop 1000 0 0 99999 ⟨2, 2, 0, 1⟩ = ([⟨2, false, 2⟩, ⟨3, false, 3⟩, ⟨4, false, 4⟩, ⟨5, false, 5⟩, ⟨6, false, 6⟩, ⟨7, false, 7⟩, ⟨8, false, 8⟩, ⟨9, false, 9⟩, ⟨10, true, 10⟩, ⟨15, false, 15⟩, ⟨20, false, 2⟩, ⟨30, false, 3⟩, ⟨40, false, 4⟩, ⟨50, false, 5⟩, ⟨60, false, 6⟩, ⟨70, false, 7⟩, ⟨80, false, 8⟩, ⟨90, false, 9⟩, ⟨100, true, 10⟩, ⟨150, false, 15⟩, ⟨200, false, 2⟩, ⟨300, false, 3⟩, ⟨400, false, 4⟩, ⟨500, false, 5⟩, ⟨600, false, 6⟩, ⟨700, false, 7⟩, ⟨800, false, 8⟩, ⟨900, false, 9⟩], 1000, 10) := by
  rw [show (99999:ℕ) = 99998 + 1 from rfl, logLoop_succ]
  rw [if_pos (by norm_num : (2:ℚ) < 1000)]
  norm_num [Logarithmic.loopStep, isMajor, log10Floor, qRound,
    logC3step_2, decide_eq_true_eq, decide_eq_false_iff_not,
    show Nat.log 10 2 = 0 from Nat.log_eq_of_pow_le_of_lt_pow (by norm_num) (by norm_num)]

theorem logC3step_0 : Logarithmic.loop 1000 0 0 100000 ⟨1, 1, 0, 1⟩ = ([⟨1, true, 1⟩, ⟨2, false, 2⟩, ⟨3, false, 3⟩, ⟨4, false, 4⟩, ⟨5, false, 5⟩, ⟨6, false, 6⟩, ⟨7, false, 7⟩, ⟨8, false, 8⟩, ⟨9, false, 9⟩, ⟨10, true, 10⟩, ⟨15, false, 15⟩, ⟨20, false, 2⟩, ⟨30, false, 3⟩, ⟨40, false, 4⟩, ⟨50, false, 5⟩, ⟨60, false, 6⟩, ⟨70, false, 7⟩, ⟨80, false, 8⟩, ⟨90, false, 9⟩, ⟨100, true, 10⟩, ⟨150, false, 15⟩, ⟨200, false, 2⟩, ⟨300, false, 3⟩, ⟨400, false, 4⟩, ⟨500, false, 5⟩, ⟨600, false, 6⟩, ⟨700, false, 7⟩, ⟨800, false, 8⟩, ⟨900, false, 9⟩], 1000, 10) := by
  rw [show (100000:ℕ) = 99999 + 1 from rfl, logLoop_succ]
  rw [if_pos (by norm_num : (1:ℚ) < 1000)]
  norm_num [Logarithmic.loopStep, isMajor, log10Floor, qRound,
    logC3step_1, decide_eq_true_eq, decide_eq_false_iff_not,
    show Nat.log 10 1 = 0 from Nat.log_eq_of_pow_le_of_lt_pow (by norm_num) (by norm_num)]


theorem startExpUp_succ (mn mx : ℚ) (n : ℕ) (e : ℤ) :
    Logarithmic.startExpUp mn mx (n + 1) e =
      (if 10 < Logarithmic.steps mn mx e then Logarithmic.startExpUp mn mx n (e + 1)
        else e) := rfl

theorem startExpDown_succ (mn mx : ℚ) (n : ℕ) (e : ℤ) :
    Logarithmic.startExpDown mn mx (n + 1) e =
      (if Logarithmic.steps mn mx e < 10 then Logarithmic.startExpDown mn mx n (e - 1)
        else e) := rfl

theorem logC3startExp : Logarithmic.startExp 1 1000 = 0 := by
  have hsteps : Logarithmic.steps 1 1000 2 = 10 := by
    norm_num [Logarithmic.steps, qFloor, qCeil]
  have hup : Logarithmic.startExpUp 1 1000 1000 2 = 2 := by
    rw [show (1000:ℕ) = 999 + 1 from rfl, startExpUp_succ, hsteps]
    norm_num
  have hdown : Logarithmic.startExpDown 1 1000 1000 2 = 2 := by
    rw [show (1000:ℕ) = 999 + 1 from rfl, startExpDown_succ, hsteps]
    norm_num
  unfold Logarithmic.startExp
  norm_num [log10Floor, hup, hdown, min_def,
    show Nat.log 10 999 = 2 from Nat.log_eq_of_pow_le_of_lt_pow (by norm_num) (by norm_num),
    Nat.log_one_right]

set_option maxRecDepth 3000

theorem log_ticks_eval_pairs :
    (Logarithmic.buildTicks 1 1000).map (fun t => (t.value, t.major)) =
      [(1, true), (2, false), (3, false), (4, false), (5, false), (6, false), (7, false), (8, false), (9, false), (10, true), (15, false), (20, false), (30, false), (40, false), (50, false), (60, false), (70, false), (80, false), (90, false), (100, true), (150, false), (200, false), (300, false), (400, false), (500, false), (600, false), (700, false), (800, false), (900, false), (1000, true)] := by
  unfold Logarithmic.buildTicks Logarithmic.generateTicks
  norm_num [logC3startExp, log10Floor, qRound, qFloor,
    decide_eq_true_eq, decide_eq_false_iff_not,
    show Int.log 10 (1:ℚ) = 0 from Int.log_one_right _,
    show Nat.log 10 1000 = 3 from Nat.log_eq_of_pow_le_of_lt_pow (by norm_num) (by norm_num)]
  rw [logC3step_0]
  norm_num [isMajor, log10Floor, decide_eq_true_eq,
    show Nat.log 10 1000 = 3 from Nat.log_eq_of_pow_le_of_lt_pow (by norm_num) (by norm_num)]

theorem log_ticks_eval_values : (Logarithmic.buildTicks 1 1000).map LogTick.value =
    [1, 2, 3, 4, 5, 6, 7, 8, 9, 10, 15, 20, 30, 40, 50, 60, 70, 80, 90, 100,
      150, 200, 300, 400, 500, 600, 700, 800, 900, 1000] := by
  have h := congrArg (List.map Prod.fst) log_ticks_eval_pairs
  simpa [List.map_map, Function.comp] using h

/-- C3 counterexample: on the domain 1 to 1000 the logarithmic stepping
emits a tick at 15 (and likewise at 150), which is not among the
claimed tick positions 1..9, 10..90 by tens, 100..900 by hundreds and
1000: after pushing the decade start the significand jumps 10 to 15
before rolling over, so the claim's minor-tick set is incomplete. -/
theorem log_scenario_counterexample :
    (15 : ℚ) ∈ (Logarithmic.buildTicks 1 1000).map LogTick.value ∧
    (15 : ℚ) ∉ ([1, 2, 3, 4, 5, 6, 7, 8, 9, 10, 20, 30, 40, 50, 60, 70, 80, 90, 100,
      200, 300, 400, 500, 600, 700, 800, 900, 1000] : List ℚ) := by
  constructor
  · rw [log_ticks_eval_values]
    norm_num
  · norm_num

/-- C3 amended: for the LogarithmicScale with domain 1 to 1000 and
beginAtZero false, buildTicks produces major ticks exactly at 1, 10,
100 and 1000 and minor ticks exactly at 2..9, 15, 20..90, 150 and
200..900, in this order, with no other ticks: the sequence additionally
contains the minor ticks 15 and 150 produced by the significand jump
from 10 to 15 inside each decade. -/
theorem log_scenario_1_1000 :
    (Logarithmic.buildTicks 1 1000).map (fun t => (t.value, t.major)) =
      [(1, true), (2, false), (3, false), (4, false), (5, false), (6, false), (7, false), (8, false), (9, false), (10, true), (15, false), (20, false), (30, false), (40, false), (50, false), (60, false), (70, false), (80, false), (90, false), (100, true), (150, false), (200, false), (300, false), (400, false), (500, false), (600, false), (700, false), (800, false), (900, false), (1000, true)] :=
  log_ticks_eval_pairs


/-! Strict monotonicity of the generated tick sequences (C1). -/

theorem pOf_pos (e0 exp : ℤ) : 0 < pOf e0 exp := by
  unfold pOf
  split <;> positivity

theorem den_one_add {x y : ℚ} (hx : x.den = 1) (hy : y.den = 1) : (x + y).den = 1 := by
  have hx' : (x.num : ℚ) = x := (Rat.den_eq_one_iff x).mp hx
  have hy' : (y.num : ℚ) = y := (Rat.den_eq_one_iff y).mp hy
  have : x + y = ((x.num + y.num : ℤ) : ℚ) := by push_cast [hx', hy']; ring
  rw [this]
  exact Rat.intCast_den _

theorem den_one_mul {x y : ℚ} (hx : x.den = 1) (hy : y.den = 1) : (x * y).den = 1 := by
  have hx' : (x.num : ℚ) = x := (Rat.den_eq_one_iff x).mp hx
  have hy' : (y.num : ℚ) = y := (Rat.den_eq_one_iff y).mp hy
  have : x * y = ((x.num * y.num : ℤ) : ℚ) := by push_cast [hx', hy']; ring
  rw [this]
  exact Rat.intCast_den _

theorem den_one_zpow_sub {a c : ℤ} (h : a ≤ c) : ((10:ℚ) ^ c * 10 ^ (-a)).den = 1 := by
  rw [← zpow_add₀ (by norm_num : (10:ℚ) ≠ 0)]
  have hnn : 0 ≤ c + -a := by omega
  obtain ⟨n, hn⟩ := Int.eq_ofNat_of_zero_le hnn
  rw [hn, zpow_natCast]
  have : ((10:ℚ)) ^ n = (((10 ^ n : ℤ)) : ℚ) := by push_cast; ring
  rw [this]
  exact Rat.intCast_den _

theorem qRound_den_one_out (x : ℚ) : (qRound x).den = 1 := Rat.intCast_den _

theorem den_one_zpow_nonneg {c : ℤ} (h : 0 ≤ c) : ((10:ℚ) ^ c).den = 1 := by
  obtain ⟨n, hn⟩ := Int.eq_ofNat_of_zero_le h
  rw [hn, zpow_natCast]
  have : ((10:ℚ)) ^ n = (((10 ^ n : ℤ)) : ℚ) := by push_cast; ring
  rw [this]
  exact Rat.intCast_den _

theorem qRound_add_den_one (y z : ℚ) (hz : z.den = 1) : qRound (y + z) = qRound y + z := by
  have hz' : (z.num : ℚ) = z := (Rat.den_eq_one_iff z).mp hz
  unfold qRound
  rw [← hz']
  rw [show y + (z.num : ℚ) + 1/2 = y + 1/2 + (z.num : ℚ) by ring, Int.floor_add_int]
  push_cast
  ring

theorem qRound_gt (x : ℚ) : x - 1/2 < qRound x := by
  unfold qRound
  have := Int.sub_one_lt_floor (x + 1/2)
  push_cast at this ⊢
  linarith

theorem qRound_le_half (x : ℚ) : qRound x ≤ x + 1/2 := by
  unfold qRound
  have := Int.floor_le (x + 1/2)
  push_cast at this ⊢
  linarith

theorem floor_le_qRound (x : ℚ) : ((⌊x⌋ : ℤ) : ℚ) ≤ qRound x := by
  unfold qRound
  have : ⌊x⌋ ≤ ⌊x + 1/2⌋ := Int.floor_le_floor (by linarith)
  exact_mod_cast this

theorem vOf_neg (b o : ℚ) (e0 s exp : ℤ)
    (HB : DecadeAligned b e0) (HO : DecadeAligned o e0)
    (hle : e0 ≤ exp) (hexp : exp < 0) :
    vOf b o e0 s exp = b + o + (s : ℚ) * 10 ^ exp := by
  obtain ⟨bz, hbz⟩ := HB
  obtain ⟨oz, hoz⟩ := HO
  have hp : pOf e0 exp = 10 ^ (-e0) := if_pos hexp
  have hbd : (b * 10 ^ (-e0)).den = 1 := by
    rw [hbz, mul_assoc]
    exact den_one_mul (Rat.intCast_den _) (den_one_zpow_sub (by omega))
  have hod : (o * 10 ^ (-e0)).den = 1 := by
    rw [hoz, mul_assoc]
    exact den_one_mul (Rat.intCast_den _) (den_one_zpow_sub (by omega))
  have hsd : ((s : ℚ) * 10 ^ exp * 10 ^ (-e0)).den = 1 := by
    rw [mul_assoc]
    exact den_one_mul (Rat.intCast_den _) (den_one_zpow_sub hle)
  have hall : ((b + o + (s : ℚ) * 10 ^ exp) * pOf e0 exp).den = 1 := by
    rw [hp, show (b + o + (s : ℚ) * 10 ^ exp) * 10 ^ (-e0) =
      b * 10 ^ (-e0) + o * 10 ^ (-e0) + (s : ℚ) * 10 ^ exp * 10 ^ (-e0) by ring]
    exact den_one_add (den_one_add hbd hod) hsd
  unfold vOf
  rw [qRound_den_one _ hall, mul_div_assoc, div_self (ne_of_gt (pOf_pos e0 exp)), mul_one]

theorem vOf_nonneg (b o : ℚ) (e0 s exp : ℤ) (hexp : 0 ≤ exp) :
    vOf b o e0 s exp = qRound (b + o) + (s : ℚ) * 10 ^ exp := by
  have hp : pOf e0 exp = 1 := if_neg (not_lt.mpr hexp)
  have hsd : ((s : ℚ) * 10 ^ exp).den = 1 :=
    den_one_mul (Rat.intCast_den _) (den_one_zpow_nonneg hexp)
  unfold vOf
  rw [hp, mul_one, div_one, qRound_add_den_one _ _ hsd]

theorem vOf_mono_s (b o : ℚ) (e0 s s' exp : ℤ)
    (HB : DecadeAligned b e0) (HO : DecadeAligned o e0)
    (hle : e0 ≤ exp) (hss : s < s') :
    vOf b o e0 s exp < vOf b o e0 s' exp := by
  have hz : (0:ℚ) < 10 ^ exp := by positivity
  have hcast : (s : ℚ) < (s' : ℚ) := by exact_mod_cast hss
  rcases lt_or_le exp 0 with hexp | hexp
  · rw [vOf_neg b o e0 s exp HB HO hle hexp, vOf_neg b o e0 s' exp HB HO hle hexp]
    nlinarith
  · rw [vOf_nonneg b o e0 s exp hexp, vOf_nonneg b o e0 s' exp hexp]
    nlinarith

theorem vOf_rollover (b o : ℚ) (e0 exp : ℤ)
    (HB : DecadeAligned b e0) (HO : DecadeAligned o e0) (hle : e0 ≤ exp) :
    vOf b o e0 15 exp < vOf b o e0 2 (exp + 1) := by
  have hten : (10:ℚ) ^ (exp + 1) = 10 ^ exp * 10 :=
    zpow_add_one₀ (by norm_num) exp
  have hz : (0:ℚ) < 10 ^ exp := by positivity
  rcases lt_or_le (exp + 1) 0 with hexp1 | hexp1
  · have hexp : exp < 0 := by omega
    rw [vOf_neg b o e0 15 exp HB HO hle hexp,
      vOf_neg b o e0 2 (exp + 1) HB HO (by omega) hexp1, hten]
    push_cast
    nlinarith
  · rcases lt_or_le exp 0 with hexp | hexp
    · have he : exp = -1 := by omega
      subst he
      rw [show (-1 : ℤ) + 1 = 0 by norm_num,
        vOf_neg b o e0 15 (-1) HB HO hle (by norm_num),
        vOf_nonneg b o e0 2 0 le_rfl]
      have hq := qRound_gt (b + o)
      push_cast
      norm_num
      nlinarith [hq]
    · rw [vOf_nonneg b o e0 15 exp hexp, vOf_nonneg b o e0 2 (exp + 1) (by omega), hten]
      push_cast
      nlinarith

theorem pOf_step (e0 exp : ℤ) :
    (if 0 ≤ exp + 1 then (1:ℚ) else pOf e0 exp) = pOf e0 (exp + 1) := by
  unfold pOf
  rcases lt_or_le (exp + 1) 0 with h1 | h1
  · rw [if_neg (by omega), if_pos h1, if_pos (by omega)]
  · rw [if_pos h1, if_neg (not_lt.mpr h1)]

theorem loopStep_spec (b o : ℚ) (e0 : ℤ) (v : ℚ) (s exp : ℤ)
    (HB : DecadeAligned b e0) (HO : DecadeAligned o e0)
    (h1 : e0 ≤ exp) (h3 : GoodSig s) :
    ∃ s' exp', Logarithmic.loopStep b o ⟨v, s, exp, pOf e0 exp⟩ =
        ⟨vOf b o e0 s' exp', s', exp', pOf e0 exp'⟩ ∧
      e0 ≤ exp' ∧ GoodSig s' ∧ vOf b o e0 s exp < vOf b o e0 s' exp' := by
  rcases h3 with ⟨hs0, hs10⟩ | hs15
  · rcases lt_or_le s 10 with hlt | hge
    · refine ⟨s + 1, exp, ?_, h1, Or.inl ⟨by omega, by omega⟩,
        vOf_mono_s b o e0 s (s + 1) exp HB HO h1 (by omega)⟩
      unfold Logarithmic.loopStep vOf
      simp only [if_neg (not_le.mpr hlt), if_neg (by omega : ¬ (20:ℤ) ≤ s + 1)]
    · have hseq : s = 10 := le_antisymm hs10 hge
      subst hseq
      refine ⟨15, exp, ?_, h1, Or.inr rfl,
        vOf_mono_s b o e0 10 15 exp HB HO h1 (by omega)⟩
      unfold Logarithmic.loopStep vOf
      norm_num
  · subst hs15
    refine ⟨2, exp + 1, ?_, by omega, Or.inl ⟨by omega, by omega⟩,
      vOf_rollover b o e0 exp HB HO h1⟩
    unfold Logarithmic.loopStep vOf
    norm_num [pOf_step]

theorem logLoop_mono (b o mx : ℚ) (e0 : ℤ)
    (HB : DecadeAligned b e0) (HO : DecadeAligned o e0) :
    ∀ (fuel : ℕ) (sg exp : ℤ), e0 ≤ exp → GoodSig sg →
      List.Chain' (· < ·) ((Logarithmic.loop mx b o fuel
          ⟨vOf b o e0 sg exp, sg, exp, pOf e0 exp⟩).1.map LogTick.value)
      ∧ (∀ t ∈ (Logarithmic.loop mx b o fuel
          ⟨vOf b o e0 sg exp, sg, exp, pOf e0 exp⟩).1, t.value < mx)
      ∧ (∀ t ∈ (Logarithmic.loop mx b o fuel
          ⟨vOf b o e0 sg exp, sg, exp, pOf e0 exp⟩).1, vOf b o e0 sg exp ≤ t.value) := by
  intro fuel
  induction fuel with
  | zero =>
    intro sg exp h1 h3
    refine ⟨by simp [Logarithmic.loop], by simp [Logarithmic.loop], by simp [Logarithmic.loop]⟩
  | succ n ih =>
    intro sg exp h1 h3
    obtain ⟨s', exp', heq, h1', h3', hlt⟩ :=
      loopStep_spec b o e0 (vOf b o e0 sg exp) sg exp HB HO h1 h3
    rw [logLoop_succ, heq]
    by_cases hv : vOf b o e0 sg exp < mx
    · obtain ⟨ih1, ih2, ih3⟩ := ih s' exp' h1' h3'
      have hvv : (⟨vOf b o e0 sg exp, sg, exp, pOf e0 exp⟩ : LogLoopState).value < mx := hv
      rw [if_pos hvv]
      refine ⟨?_, ?_, ?_⟩
      · rw [List.map_cons]
        refine List.chain'_cons'.mpr ⟨?_, ih1⟩
        intro y hy
        have hy' := List.mem_of_mem_head? hy
        obtain ⟨t, ht, rfl⟩ := List.mem_map.mp hy'
        exact lt_of_lt_of_le hlt (ih3 t ht)
      · intro t ht
        rcases List.mem_cons.mp ht with h | h
        · rw [h]
          exact hv
        · exact ih2 t h
      · intro t ht
        rcases List.mem_cons.mp ht with h | h
        · rw [h]
        · exact le_trans (le_of_lt hlt) (ih3 t h)
    · have hvv : ¬ (⟨vOf b o e0 sg exp, sg, exp, pOf e0 exp⟩ : LogLoopState).value < mx := hv
      rw [if_neg hvv]
      refine ⟨by simp, by simp, by simp⟩

theorem chain_append_last {α : Type} (f : α → ℚ) (body : List α) (a : α) (mx : ℚ)
    (hfa : f a = mx)
    (hch : List.Chain' (· < ·) (body.map f))
    (hub : ∀ t ∈ body, f t < mx) :
    List.Chain' (· < ·) ((body ++ [a]).map f) := by
  rw [List.map_append, List.chain'_append]
  refine ⟨hch, by simp, ?_⟩
  intro x hx y hy
  simp only [List.map_cons, List.map_nil, List.head?_cons, Option.mem_def,
    Option.some.injEq] at hy
  subst hy
  rw [hfa]
  have hxmem := List.mem_of_mem_getLast? hx
  obtain ⟨t, ht, rfl⟩ := List.mem_map.mp hxmem
  exact hub t ht

theorem loopStep_init (b o : ℚ) (e0 : ℤ) (v : ℚ) (s : ℤ)
    (h0 : 0 ≤ s) (h10 : s ≤ 10) :
    ∃ s', Logarithmic.loopStep b o ⟨v, s, e0, pOf e0 e0⟩ =
        ⟨vOf b o e0 s' e0, s', e0, pOf e0 e0⟩ ∧
      GoodSig s' ∧ s + 1 ≤ s' := by
  rcases lt_or_le s 10 with hlt | hge
  · refine ⟨s + 1, ?_, Or.inl ⟨by omega, by omega⟩, le_refl _⟩
    unfold Logarithmic.loopStep vOf
    simp only [if_neg (not_le.mpr hlt), if_neg (by omega : ¬ (20:ℤ) ≤ s + 1)]
  · have hseq : s = 10 := le_antisymm h10 hge
    subst hseq
    refine ⟨15, ?_, Or.inr rfl, by omega⟩
    unfold Logarithmic.loopStep vOf
    norm_num

theorem base_aligned (minExp e0 : ℤ) :
    DecadeAligned (if e0 < minExp then (10:ℚ) ^ minExp else 0) e0 := by
  split
  · rename_i hltm
    refine ⟨10 ^ (minExp - (e0 + 1)).toNat, ?_⟩
    push_cast
    rw [← zpow_natCast (10:ℚ) (minExp - (e0 + 1)).toNat,
      Int.toNat_of_nonneg (by omega), ← zpow_add₀ (by norm_num : (10:ℚ) ≠ 0)]
    congr 1
    omega
  · exact ⟨0, by simp⟩

theorem offset_aligned (x : ℚ) (e0 : ℤ) :
    DecadeAligned (qFloor (x / 10 ^ e0 / 10) * 10 ^ e0 * 10) e0 := by
  refine ⟨⌊x / 10 ^ e0 / 10⌋, ?_⟩
  unfold qFloor
  rw [zpow_add_one₀ (by norm_num : (10:ℚ) ≠ 0)]
  ring

theorem init_bounds (x : ℚ) (e0 : ℤ) :
    0 ≤ ⌊(qRound (x * pOf e0 e0) / pOf e0 e0
        - qFloor (x / 10 ^ e0 / 10) * 10 ^ e0 * 10) / (10:ℚ) ^ e0⌋ ∧
    ⌊(qRound (x * pOf e0 e0) / pOf e0 e0
        - qFloor (x / 10 ^ e0 / 10) * 10 ^ e0 * 10) / (10:ℚ) ^ e0⌋ ≤ 10 ∧
    x < qFloor (x / 10 ^ e0 / 10) * 10 ^ e0 * 10 +
      ((⌊(qRound (x * pOf e0 e0) / pOf e0 e0
        - qFloor (x / 10 ^ e0 / 10) * 10 ^ e0 * 10) / (10:ℚ) ^ e0⌋ : ℚ) + 1) * 10 ^ e0 := by
  set P : ℚ := (10:ℚ) ^ e0 with hP
  have hPpos : (0:ℚ) < P := by rw [hP]; positivity
  set k : ℤ := ⌊x / P / 10⌋ with hk
  have hqf : qFloor (x / P / 10) = ((k : ℤ) : ℚ) := by
    unfold qFloor
    rw [← hk]
  have hdiv1 : (k:ℚ) * 10 ≤ x / P := by
    have h1 := Int.floor_le (x / P / 10)
    rw [← hk] at h1
    exact (le_div_iff (by norm_num : (0:ℚ) < 10)).mp h1
  have hdiv2 : x / P < ((k:ℚ) + 1) * 10 := by
    have h1 := Int.lt_floor_add_one (x / P / 10)
    rw [← hk] at h1
    exact (div_lt_iff (by norm_num : (0:ℚ) < 10)).mp h1
  rw [hqf]
  rcases lt_or_le e0 0 with he | he
  · have hpv : pOf e0 e0 = P⁻¹ := by
      unfold pOf
      rw [if_pos he, hP, zpow_neg]
    set r : ℤ := ⌊x / P + 1/2⌋ with hr
    have hstart : qRound (x * pOf e0 e0) / pOf e0 e0 = (r:ℚ) * P := by
      rw [hpv]
      have e1 : x * P⁻¹ = x / P := (div_eq_mul_inv x P).symm
      rw [e1, div_eq_mul_inv, inv_inv]
      unfold qRound
      rw [← hr]
    rw [hstart]
    have hs0v : ⌊((r:ℚ) * P - (k:ℚ) * P * 10) / P⌋ = r - 10 * k := by
      have hdq : ((r:ℚ) * P - (k:ℚ) * P * 10) / P = ((r - 10*k : ℤ) : ℚ) := by
        field_simp
        ring
      rw [hdq, Int.floor_intCast]
    rw [hs0v]
    have hr1 : 10 * k ≤ r := by
      rw [hr]
      apply Int.le_floor.mpr
      push_cast
      linarith
    have hr2 : r ≤ 10 * k + 10 := by
      have hle := Int.floor_le (x / P + 1/2)
      rw [← hr] at hle
      have : (r:ℚ) < ((10 * k + 11 : ℤ) : ℚ) := by push_cast; linarith
      have h2 : r < 10 * k + 11 := by exact_mod_cast this
      omega
    refine ⟨by omega, by omega, ?_⟩
    have hrlow : x / P - 1/2 < (r:ℚ) := by
      have h3 := Int.sub_one_lt_floor (x / P + 1/2)
      rw [← hr] at h3
      linarith
    have hxP : x / P < (r:ℚ) + 1 := by linarith
    have hxlt : x < ((r:ℚ) + 1) * P := (div_lt_iff hPpos).mp hxP
    have hexpand : (k:ℚ) * P * 10 + (((r:ℚ) - (10*k : ℤ)) + 1) * P = ((r:ℚ) + 1) * P := by
      push_cast
      ring
    push_cast
    push_cast at hexpand
    linarith [hexpand, hxlt]
  · have hpv : pOf e0 e0 = 1 := by
      unfold pOf
      rw [if_neg (not_lt.mpr he)]
    set r : ℤ := ⌊x + 1/2⌋ with hr
    have hstart : qRound (x * pOf e0 e0) / pOf e0 e0 = (r:ℚ) := by
      rw [hpv, mul_one, div_one]
      unfold qRound
      rw [← hr]
    rw [hstart]
    obtain ⟨n, hn⟩ := Int.eq_ofNat_of_zero_le he
    have hPm : P = ((10 ^ n : ℤ) : ℚ) := by
      rw [hP, hn, zpow_natCast]
      push_cast
      ring
    set m : ℤ := 10 ^ n with hm
    have hmP : ((m : ℤ) : ℚ) = P := by rw [hm, hPm]
    have hm1 : (1:ℤ) ≤ m := by
      rw [hm]
      calc (1:ℤ) = 1 ^ n := (one_pow n).symm
      _ ≤ 10 ^ n := pow_le_pow_left (by norm_num) (by norm_num) n
    have hP1 : (1:ℚ) ≤ P := by rw [← hmP]; exact_mod_cast hm1
    have hkPx : (k:ℚ) * 10 * P ≤ x := by
      have := (le_div_iff hPpos).mp hdiv1
      linarith
    have hxkP : x < ((k:ℚ) + 1) * 10 * P := by
      have := (div_lt_iff hPpos).mp hdiv2
      linarith
    have hor : k * m * 10 ≤ r := by
      rw [hr]
      apply Int.le_floor.mpr
      push_cast
      rw [hmP]
      linarith
    have hnum0 : (0:ℚ) ≤ (r:ℚ) - (k:ℚ) * P * 10 := by
      have : ((k * m * 10 : ℤ) : ℚ) ≤ (r:ℚ) := by exact_mod_cast hor
      push_cast at this
      rw [hmP] at this
      linarith
    have hge0 : 0 ≤ ⌊((r:ℚ) - (k:ℚ) * P * 10) / P⌋ := by
      apply Int.floor_nonneg.mpr
      positivity
    have hrle : (r:ℚ) ≤ x + 1/2 := by
      have := Int.floor_le (x + 1/2)
      rw [← hr] at this
      linarith
    have hle10 : ⌊((r:ℚ) - (k:ℚ) * P * 10) / P⌋ ≤ 10 := by
      have h11 : ((r:ℚ) - (k:ℚ) * P * 10) / P < ((11:ℤ) : ℚ) := by
        rw [div_lt_iff hPpos]
        push_cast
        nlinarith
      have := Int.floor_lt.mpr h11
      omega
    refine ⟨hge0, hle10, ?_⟩
    set S : ℤ := ⌊((r:ℚ) - (k:ℚ) * P * 10) / P⌋ with hS
    have hA : ((r - k * m * 10 : ℤ) : ℚ) = (r:ℚ) - (k:ℚ) * P * 10 := by
      push_cast
      rw [hmP]
    have hAlt : ((r - k * m * 10 : ℤ) : ℚ) < ((S:ℚ) + 1) * P := by
      rw [hA]
      have h1 := Int.lt_floor_add_one (((r:ℚ) - (k:ℚ) * P * 10) / P)
      rw [← hS] at h1
      have := (div_lt_iff hPpos).mp h1
      linarith
    have hSm : (((S + 1) * m : ℤ) : ℚ) = ((S:ℚ) + 1) * P := by
      push_cast
      rw [hmP]
    have hAltZ : r - k * m * 10 < (S + 1) * m := by
      rw [← hSm] at hAlt
      exact_mod_cast hAlt
    have hAle : ((r - k * m * 10 : ℤ) : ℚ) + 1 ≤ (((S + 1) * m : ℤ) : ℚ) := by
      have h2 : r - k * m * 10 + 1 ≤ (S + 1) * m := by omega
      exact_mod_cast h2
    have hrx : x - 1/2 < (r:ℚ) := by
      have h3 := Int.sub_one_lt_floor (x + 1/2)
      rw [← hr] at h3
      linarith
    have hfin : x < (k:ℚ) * P * 10 + ((S:ℚ) + 1) * P := by
      have hSm : (((S + 1) * m : ℤ) : ℚ) = ((S:ℚ) + 1) * P := by
        push_cast
        rw [hmP]
      rw [hSm] at hAle
      rw [hA] at hAle
      linarith
    linarith [hfin]

theorem log_ticks_chain (smin smax : ℚ) (hpos : 0 < smin) (hlt : smin < smax) :
    List.Chain' (· < ·) ((Logarithmic.buildTicks smin smax).map LogTick.value) := by
  unfold Logarithmic.buildTicks Logarithmic.generateTicks
  simp only [Option.getD_some]
  set minExp := log10Floor smin with hminExp
  set e0 := Logarithmic.startExp smin smax with he0
  set b : ℚ := if e0 < minExp then (10:ℚ) ^ minExp else 0 with hbdef
  set prec : ℚ := if e0 < 0 then (10:ℚ) ^ (-e0) else 1 with hprecdef
  set start : ℚ := qRound ((smin - b) * prec) / prec with hstartdef
  set o : ℚ := qFloor ((smin - b) / 10 ^ e0 / 10) * 10 ^ e0 * 10 with hodef
  set s0 : ℤ := ⌊(start - o) / (10:ℚ) ^ e0⌋ with hs0def
  have hprec_pOf : prec = pOf e0 e0 := by rw [hprecdef]; rfl
  have HB : DecadeAligned b e0 := by rw [hbdef]; exact base_aligned minExp e0
  have HO : DecadeAligned o e0 := by rw [hodef]; exact offset_aligned (smin - b) e0
  obtain ⟨hs0ge, hs0le, hxlt⟩ := init_bounds (smin - b) e0
  have hfl_eq : ⌊(qRound ((smin - b) * pOf e0 e0) / pOf e0 e0
      - qFloor ((smin - b) / 10 ^ e0 / 10) * 10 ^ e0 * 10) / (10:ℚ) ^ e0⌋ = s0 := by
    rw [hs0def, hstartdef, hodef, hprec_pOf]
  rw [hfl_eq] at hs0ge hs0le hxlt
  rw [← hodef] at hxlt
  have hvOf1 : smin < vOf b o e0 (s0 + 1) e0 := by
    rcases lt_or_le e0 0 with he | he
    · rw [vOf_neg b o e0 (s0+1) e0 HB HO le_rfl he]
      push_cast
      push_cast at hxlt
      linarith
    · rw [vOf_nonneg b o e0 (s0+1) e0 he]
      have hbden : b.den = 1 := by
        rw [hbdef]
        split
        · exact den_one_zpow_nonneg (by omega)
        · rfl
      have hoden : o.den = 1 := by
        rw [hodef]
        unfold qFloor
        exact den_one_mul (den_one_mul (Rat.intCast_den _) (den_one_zpow_nonneg he))
          (by norm_num)
      rw [qRound_den_one _ (den_one_add hbden hoden)]
      push_cast
      push_cast at hxlt
      linarith
  rw [hprec_pOf]
  rw [show (100000:ℕ) = 99999 + 1 from rfl, logLoop_succ]
  have hcond : (⟨smin, s0, e0, pOf e0 e0⟩ : LogLoopState).value < smax := hlt
  rw [if_pos hcond]
  obtain ⟨s1, hstep, hgood1, hs1ge⟩ := loopStep_init b o e0 smin s0 hs0ge hs0le
  rw [hstep]
  obtain ⟨hch, hub, hlb⟩ := logLoop_mono b o smax e0 HB HO 99999 s1 e0 le_rfl hgood1
  have hsmin_lt : smin < vOf b o e0 s1 e0 := by
    rcases eq_or_lt_of_le hs1ge with heq1 | hlt1
    · rw [← heq1]
      exact hvOf1
    · exact lt_trans hvOf1 (vOf_mono_s b o e0 (s0+1) s1 e0 HB HO le_rfl hlt1)
  apply chain_append_last LogTick.value _ _ smax rfl
  · rw [List.map_cons]
    refine List.chain'_cons'.mpr ⟨?_, hch⟩
    intro y hy
    have hy' := List.mem_of_mem_head? hy
    obtain ⟨t, ht, rfl⟩ := List.mem_map.mp hy'
    exact lt_of_lt_of_le hsmin_lt (hlb t ht)
  · intro t ht
    rcases List.mem_cons.mp ht with h | h
    · rw [h]
      exact hlt
    · exact hub t h

theorem dvd_ten_pow_self : ∀ d : ℕ, 0 < d → ∀ m : ℕ, d ∣ 10 ^ m → d ∣ 10 ^ d := by
  intro d
  induction d using Nat.strong_induction_on with
  | _ d ih =>
    intro hd m hdvd
    rcases Nat.lt_or_ge d 2 with h1 | h1
    · interval_cases d
      exact one_dvd _
    · obtain ⟨p, hp, hpd⟩ := Nat.exists_prime_and_dvd (by omega : d ≠ 1)
      obtain ⟨e, rfl⟩ := hpd
      have hepos : 0 < e := by
        rcases Nat.eq_zero_or_pos e with rfl | h
        · simp at hd
        · exact h
      have hp10 : p ∣ 10 := hp.dvd_of_dvd_pow (dvd_trans (dvd_mul_right p e) hdvd)
      have hedvd : e ∣ 10 ^ m := dvd_trans (dvd_mul_left e p) hdvd
      have helt : e < p * e := by nlinarith [hp.two_le]
      have hih : e ∣ 10 ^ e := ih e helt hepos m hedvd
      have hle : e + 1 ≤ p * e := by
        have := Nat.mul_le_mul_right e hp.two_le
        omega
      calc p * e ∣ 10 ^ (e + 1) := by
            rw [pow_succ, mul_comm (10 ^ e) 10]
            exact mul_dvd_mul hp10 hih
      _ ∣ 10 ^ (p * e) := pow_dvd_pow 10 hle

theorem den_dvd_of_mul_pow (q : ℚ) (m : ℕ) (h : (q * 10 ^ m).den = 1) :
    q.den ∣ 10 ^ m := by
  have hz : ((q * 10 ^ m).num : ℚ) = q * 10 ^ m := (Rat.den_eq_one_iff _).mp h
  have hq : q = Rat.divInt (q * 10 ^ m).num ((10:ℤ) ^ m) := by
    rw [Rat.divInt_eq_div, hz]
    push_cast
    field_simp
  have hd := Rat.den_dvd (q * 10 ^ m).num ((10:ℤ) ^ m)
  rw [← hq] at hd
  have h2 : (q.den : ℤ) ∣ ((10 ^ m : ℕ) : ℤ) := by push_cast; exact hd
  exact_mod_cast h2

theorem den_dvd_ten_pow_den (q : ℚ) (m : ℕ) (h : q.den ∣ 10 ^ m) :
    (q * 10 ^ q.den).den = 1 := by
  have hself : q.den ∣ 10 ^ q.den :=
    dvd_ten_pow_self q.den (Nat.pos_of_ne_zero q.den_nz) m h
  obtain ⟨c, hc⟩ := hself
  have hmain : q * 10 ^ q.den = ((q.num * (c:ℤ) : ℤ) : ℚ) := by
    have h10 : ((10:ℚ)) ^ q.den = ((q.den * c : ℕ) : ℚ) := by
      rw [← hc]
      push_cast
      ring
    have hden0 : ((q.den : ℚ)) ≠ 0 := Nat.cast_ne_zero.mpr q.den_nz
    have h0 : (q.num:ℚ) = q * (q.den:ℚ) := by
      have hnd := Rat.num_div_den q
      rwa [div_eq_iff hden0] at hnd
    calc q * 10 ^ q.den = (q * (q.den:ℚ)) * (c:ℚ) := by rw [h10]; push_cast; ring
    _ = (q.num:ℚ) * (c:ℚ) := by rw [← h0]
    _ = ((q.num * (c:ℤ) : ℤ) : ℚ) := by push_cast; ring
  rw [hmain]
  exact Rat.intCast_den _

theorem isDecimal_of_mul_pow (q : ℚ) (m : ℕ) (h : (q * 10 ^ m).den = 1) :
    IsDecimal q :=
  den_dvd_ten_pow_den q m (den_dvd_of_mul_pow q m h)

theorem isDecimal_of_den_one {q : ℚ} (h : q.den = 1) : IsDecimal q :=
  den_one_mul_pow q h q.den

theorem isDecimal_mul_zpow (c : ℚ) (hc : c.den = 1) (e : ℤ) : IsDecimal (c * 10 ^ e) := by
  rcases le_or_lt 0 e with he | he
  · exact isDecimal_of_den_one (den_one_mul hc (den_one_zpow_nonneg he))
  · apply isDecimal_of_mul_pow (c * 10 ^ e) ((-e).toNat)
    have hcl : c * 10 ^ e * 10 ^ ((-e).toNat) = c := by
      rw [← zpow_natCast (10:ℚ) ((-e).toNat), Int.toNat_of_nonneg (by omega : (0:ℤ) ≤ -e),
        mul_assoc, ← zpow_add₀ (by norm_num : (10:ℚ) ≠ 0)]
      simp
    rw [hcl]
    exact hc

theorem niceNum_pos {x : ℚ} (hx : 0 < x) : 0 < niceNum x := by
  simp only [niceNum, if_neg (not_le.mpr hx)]
  split_ifs <;> positivity

theorem niceNum_isDecimal {x : ℚ} (hx : 0 < x) : IsDecimal (niceNum x) := by
  simp only [niceNum, if_neg (not_le.mpr hx)]
  split_ifs
  · exact isDecimal_mul_zpow 1 rfl _
  · exact isDecimal_mul_zpow 2 rfl _
  · exact isDecimal_mul_zpow 5 rfl _
  · exact isDecimal_mul_zpow 10 rfl _

theorem gtState_case4_fields (g : BuildTickOptions) (dr : MinMax)
    (hstep : g.step = none) (hcount : g.count = none) (hprec : g.precision = none)
    (hbounds : g.bounds = TickBounds.data) :
    ∃ sp : ℚ, (gtState g dr).spacing = sp ∧
      (0 < g.maxTicks - 1 → dr.min < dr.max → 0 < sp ∧ IsDecimal sp) ∧
      (gtState g dr).factor = 10 ^ (max (decimalPlaces sp) (decimalPlaces dr.min)) ∧
      (gtState g dr).niceMin = qRound (dr.min * (gtState g dr).factor) / (gtState g dr).factor ∧
      (gtState g dr).niceMax = qRound (dr.max * (gtState g dr).factor) / (gtState g dr).factor ∧
      (gtState g dr).numSpaces =
        (if almostEquals ((dr.max - dr.min) / sp) (qRound ((dr.max - dr.min) / sp)) (sp / 1000)
         then qRound ((dr.max - dr.min) / sp) else qCeil ((dr.max - dr.min) / sp)) := by
  unfold gtState
  simp only [hstep, hcount, hprec, hbounds, Option.getD_none, Option.isSome_none, ne_eq,
    not_true_eq_false, false_and, and_false, if_false, Bool.false_eq_true, mul_one, div_one]
  refine ⟨_, rfl, ?_, by first | rfl | trivial, by first | rfl | trivial,
    by first | rfl | trivial, by first | rfl | trivial⟩
  intro hmaxT hr
  have hbase : 0 < niceNum ((dr.max - dr.min) / (g.maxTicks - 1)) :=
    niceNum_pos (div_pos (sub_pos.mpr hr) hmaxT)
  constructor
  · split_ifs with h
    · exact niceNum_pos (div_pos (mul_pos (lt_trans hmaxT h) hbase) hmaxT)
    · exact niceNum_pos (div_pos (sub_pos.mpr hr) hmaxT)
  · split_ifs with h
    · exact niceNum_isDecimal (div_pos (mul_pos (lt_trans hmaxT h) hbase) hmaxT)
    · exact niceNum_isDecimal (div_pos (sub_pos.mpr hr) hmaxT)

theorem gtFront_pinned_eq (g : BuildTickOptions) (st : GTState) (mn : ℚ)
    (hmin : g.min = some mn) (heq : st.niceMin = mn) :
    gtFront g st = ([], 0) := by
  unfold gtFront
  simp only [hmin]
  have hcond : ¬ (g.includeBounds = true ∧ ¬ st.niceMin = mn) := fun h => h.2 heq
  rw [if_neg hcond, heq, if_neg (lt_irrefl mn)]

theorem tickAt_linear (st : GTState) (hfne : st.factor ≠ 0)
    (hmden : (st.niceMin * st.factor).den = 1)
    (hsden : (st.spacing * st.factor).den = 1) :
    ∀ j : ℕ, tickAt st (j : ℚ) = st.niceMin + (j : ℚ) * st.spacing := by
  intro j
  unfold tickAt
  have hall : ((st.niceMin + (j:ℚ) * st.spacing) * st.factor).den = 1 := by
    rw [add_mul]
    refine den_one_add hmden ?_
    have hassoc : (j:ℚ) * st.spacing * st.factor = (j:ℚ) * (st.spacing * st.factor) := by
      ring
    rw [hassoc]
    exact den_one_mul (Rat.den_natCast j) hsden
  exact roundFac_exact _ _ hfne hall

theorem gtLoopGo_facts (g : BuildTickOptions) (st : GTState) (mx : ℚ)
    (hmax : g.max = some mx) (hsp : 0 < st.spacing)
    (hlin : ∀ j : ℕ, tickAt st (j:ℚ) = st.niceMin + (j:ℚ) * st.spacing) :
    ∀ (fuel j0 : ℕ),
      List.Chain' (· < ·) (gtLoopGo g st fuel j0)
      ∧ (∀ v ∈ gtLoopGo g st fuel j0, v ≤ mx
          ∧ ∃ j : ℕ, j0 ≤ j ∧ j < j0 + fuel ∧ v = st.niceMin + (j:ℚ) * st.spacing) := by
  intro fuel
  induction fuel with
  | zero =>
    intro j0
    exact ⟨by simp [gtLoopGo], by simp [gtLoopGo]⟩
  | succ n ih =>
    intro j0
    simp only [gtLoopGo, hmax]
    by_cases hb : mx < tickAt st (j0:ℚ)
    · simp only [hb, if_true]
      exact ⟨List.chain'_nil, by simp⟩
    · simp only [hb, if_false]
      obtain ⟨ih1, ih2⟩ := ih (j0 + 1)
      refine ⟨?_, ?_⟩
      · refine List.chain'_cons'.mpr ⟨?_, ih1⟩
        intro y hy
        have hy' := List.mem_of_mem_head? hy
        obtain ⟨hyle, j, hj1, hj2, hjv⟩ := ih2 y hy'
        rw [hlin j0, hjv]
        have hcast : ((j0:ℚ)) < (j:ℚ) := by exact_mod_cast Nat.lt_of_lt_of_le (Nat.lt_succ_self j0) hj1
        nlinarith
      · intro v hv
        rcases List.mem_cons.mp hv with h | h
        · subst h
          exact ⟨not_lt.mp hb, j0, le_refl _, by omega, hlin j0⟩
        · obtain ⟨hyle, j, hj1, hj2, hjv⟩ := ih2 v h
          exact ⟨hyle, j, by omega, by omega, hjv⟩

theorem gtEnd_chain (g : BuildTickOptions) (st : GTState) (body : List Tick) (mx : ℚ)
    (hmax : g.max = some mx)
    (hch : List.Chain' (· < ·) (body.map Tick.value))
    (hub : ∀ t ∈ body, t.value < mx) :
    List.Chain' (· < ·) ((gtEnd g st body).map Tick.value) := by
  unfold gtEnd
  simp only [hmax]
  by_cases hsw : g.includeBounds = true ∧ ¬ st.niceMax = mx
  · rw [if_pos hsw]
    cases hl : body.getLast? with
    | none => exact chain_append_last Tick.value body _ mx rfl hch hub
    | some t =>
      show List.Chain' (· < ·)
        ((if almostEquals t.value mx (relativeLabelSize mx st.minSpacing g)
          then body.dropLast ++ [Tick.mk mx] else body ++ [Tick.mk mx]).map Tick.value)
      by_cases hae : almostEquals t.value mx (relativeLabelSize mx st.minSpacing g)
      · rw [if_pos hae]
        refine chain_append_last Tick.value body.dropLast _ mx rfl ?_ ?_
        · rw [List.map_dropLast]
          exact List.Chain'.prefix hch (List.dropLast_prefix _)
        · intro u hu
          exact hub u (List.mem_of_mem_dropLast hu)
      · rw [if_neg hae]
        exact chain_append_last Tick.value body _ mx rfl hch hub
  · rw [if_neg hsw]
    by_cases heq : st.niceMax = mx
    · rw [if_pos heq, heq]
      exact chain_append_last Tick.value body _ mx rfl hch hub
    · rw [if_neg heq]
      exact hch

theorem linear_ticks_chain (smin smax : ℚ) (g : BuildTickOptions)
    (hlt : smin < smax) (hdec : IsDecimal smin)
    (hstep : g.step = none) (hcount : g.count = none) (hprec : g.precision = none)
    (hbounds : g.bounds = TickBounds.data) (hinc : g.includeBounds = true) :
    List.Chain' (· < ·) ((Linear.buildTicks smin smax g).map Tick.value) := by
  unfold Linear.buildTicks
  set g' : BuildTickOptions :=
    { g with min := some smin, max := some smax, maxTicks := max 2 g.maxTicks } with hg'
  have hg'step : g'.step = none := hstep
  have hg'count : g'.count = none := hcount
  have hg'prec : g'.precision = none := hprec
  have hg'bounds : g'.bounds = TickBounds.data := hbounds
  have hg'min : g'.min = some smin := rfl
  have hg'max : g'.max = some smax := rfl
  have hg'maxT : 0 < g'.maxTicks - 1 := by
    have h2 : (2:ℚ) ≤ max 2 g.maxTicks := le_max_left _ _
    show 0 < max 2 g.maxTicks - 1
    linarith
  rw [generateTicks_eq g' ⟨smin, smax⟩ smin hg'min]
  set st := gtState g' ⟨smin, smax⟩ with hst
  obtain ⟨sp, hsp_eq, hsp_props, hfac, hnmin, hnmax, hns⟩ :=
    gtState_case4_fields g' ⟨smin, smax⟩ hg'step hg'count hg'prec hg'bounds
  rw [← hst] at hsp_eq hfac hnmin hnmax hns
  simp only [show (⟨smin, smax⟩ : MinMax).min = smin from rfl,
    show (⟨smin, smax⟩ : MinMax).max = smax from rfl] at hsp_props hfac hnmin hnmax hns
  obtain ⟨hsp_pos, hsp_dec⟩ := hsp_props hg'maxT hlt
  have hfac_pos : 0 < st.factor := by rw [hfac]; positivity
  have hfac_ne : st.factor ≠ 0 := ne_of_gt hfac_pos
  have hminden : (smin * st.factor).den = 1 := by
    rw [hfac]
    exact exact_at_ge hdec (le_max_right _ _)
  have hspden : (st.spacing * st.factor).den = 1 := by
    rw [hsp_eq, hfac]
    exact exact_at_ge hsp_dec (le_max_left _ _)
  have hnicemin : st.niceMin = smin := by
    rw [hnmin]
    exact roundFac_exact _ _ hfac_ne hminden
  simp only [gtFront_pinned_eq g' st smin hg'min hnicemin, List.nil_append]
  have hmden' : (st.niceMin * st.factor).den = 1 := by
    rw [hnicemin]
    exact hminden
  have hlin := tickAt_linear st hfac_ne hmden' hspden
  have hsp_pos' : 0 < st.spacing := by rw [hsp_eq]; exact hsp_pos
  unfold gtLoop
  obtain ⟨hch, hmem⟩ := gtLoopGo_facts g' st smax hg'max hsp_pos' hlin
    ((⌈st.numSpaces⌉ - ((0:ℕ):ℤ)).toNat) 0
  have hub : ∀ v ∈ gtLoopGo g' st ((⌈st.numSpaces⌉ - ((0:ℕ):ℤ)).toNat) 0, v < smax := by
    intro v hv
    obtain ⟨hle, j, hj0, hjF, hjv⟩ := hmem v hv
    rcases lt_or_eq_of_le hle with h | h
    · exact h
    · exfalso
      have hsm : st.niceMin + (j:ℚ) * st.spacing = smax := by rw [← hjv, h]
      rw [hnicemin] at hsm
      have hspne : st.spacing ≠ 0 := ne_of_gt hsp_pos'
      have hrho : (smax - smin) / st.spacing = (j:ℚ) := by
        field_simp
        linarith
      have hrho' : (smax - smin) / sp = (j:ℚ) := by rw [← hsp_eq]; exact hrho
      have hqr : qRound ((j:ℚ)) = (j:ℚ) := qRound_den_one _ (Rat.den_natCast j)
      have hae : almostEquals ((j:ℚ)) ((j:ℚ)) (sp / 1000) := by
        unfold almostEquals
        rw [sub_self, abs_zero]
        exact div_pos hsp_pos (by norm_num)
      have hns' : st.numSpaces = (j:ℚ) := by
        rw [hns, hrho', hqr, if_pos hae]
      rw [hns'] at hjF
      rw [Int.ceil_natCast] at hjF
      omega
  have hmapid : ∀ L : List ℚ, (L.map (fun v => (⟨v⟩ : Tick))).map Tick.value = L := by
    intro L
    induction L with
    | nil => rfl
    | cons a l ih => simp only [List.map_cons, ih]
  have hch' : List.Chain' (· < ·)
      (((gtLoopGo g' st ((⌈st.numSpaces⌉ - ((0:ℕ):ℤ)).toNat) 0).map
        (fun v => (⟨v⟩ : Tick))).map Tick.value) := by
    rw [hmapid]
    exact hch
  have hub' : ∀ t ∈ (gtLoopGo g' st ((⌈st.numSpaces⌉ - ((0:ℕ):ℤ)).toNat) 0).map
      (fun v => (⟨v⟩ : Tick)), t.value < smax := by
    intro t ht
    obtain ⟨v, hv, rfl⟩ := List.mem_map.mp ht
    exact hub v hv
  exact gtEnd_chain g' st _ smax hg'max hch' hub'

/-- C1 counterexample: with pinned bounds 0 and 1, an explicit tick
count of four and precision zero, buildTicks emits the value sequence
0, 0, 1, 1, which is not strictly increasing (adjacent ticks repeat). -/
theorem ticks_monotonic_counterexample :
    (Linear.buildTicks 0 1
      { defaultTickSettings with count := some 4, precision := some 0 }).map Tick.value
      = [0, 0, 1, 1] ∧
    ¬ List.Chain' (· < ·)
      ((Linear.buildTicks 0 1
        { defaultTickSettings with count := some 4, precision := some 0 }).map Tick.value) := by
  have heval : (Linear.buildTicks 0 1
      { defaultTickSettings with count := some 4, precision := some 0 }).map Tick.value
      = [0, 0, 1, 1] := by
    have h1 : (some (0:ℚ) = none) = False := by simp
    have h2 : (some (1:ℚ) = none) = False := by simp
    norm_num [h1, h2, Linear.buildTicks, generateTicks, gtState, gtFront, gtLoop, gtLoopGo, gtEnd,
      tickAt, niceNum, qFloor, qCeil, qRound, decimalPlaces, dpAux, relativeLabelSize,
      almostEquals, almostWhole, defaultTickSettings, min_def, max_def, reduceCtorEq,
      show Int.log 10 (1:ℚ) = 0 from Int.log_one_right _]
  refine ⟨heval, ?_⟩
  rw [heval]
  norm_num [List.chain'_cons]

/-- C1 amended: strict monotonicity of the generated tick values holds
on the two default generation paths.  For LinearScale.buildTicks with
no step, count or precision override, data bounds, includeBounds true,
a finite-decimal domain minimum and min < max, consecutive tick values
strictly increase; and for LogarithmicScale.buildTicks over any
positive domain with min < max, consecutive tick values strictly
increase.  The unrestricted claim is false: with an explicit count and
precision the linear generator repeats values
(ticks_monotonic_counterexample). -/
theorem ticks_strictly_increasing :
    (∀ (smin smax : ℚ) (g : BuildTickOptions), smin < smax → IsDecimal smin →
      g.step = none → g.count = none → g.precision = none →
      g.bounds = TickBounds.data → g.includeBounds = true →
      List.Chain' (· < ·) ((Linear.buildTicks smin smax g).map Tick.value)) ∧
    (∀ smin smax : ℚ, 0 < smin → smin < smax →
      List.Chain' (· < ·) ((Logarithmic.buildTicks smin smax).map LogTick.value)) :=
  ⟨fun smin smax g hlt hdec hstep hcount hprec hbounds hinc =>
      linear_ticks_chain smin smax g hlt hdec hstep hcount hprec hbounds hinc,
    fun smin smax hpos hlt => log_ticks_chain smin smax hpos hlt⟩

/-- Witness for ticks_strictly_increasing: the linear side at the
domain 0 to 1 with the default tick settings, the logarithmic side at
the domain 1 to 1000. -/
theorem ticks_strictly_increasing_witness :
    List.Chain' (· < ·) ((Linear.buildTicks 0 1 defaultTickSettings).map Tick.value) ∧
    List.Chain' (· < ·) ((Logarithmic.buildTicks 1 1000).map LogTick.value) :=
  ⟨ticks_strictly_increasing.1 0 1 defaultTickSettings (by norm_num)
      (isDecimal_of_den_one rfl) rfl rfl rfl rfl rfl,
    ticks_strictly_increasing.2 1 1000 (by norm_num) (by norm_num)⟩

end ZCharts
